import Mathlib

/-!
Verification of the monday-mermaid synchronization and freshness subsystem.

The definitions below are a shallow embedding of the TypeScript sources:
`src/lib/cache-manager.ts` (sync orchestrator), `src/lib/database.ts`
(relational store adapter), `src/lib/config.ts` (configuration),
`lib/monday-api.ts` (remote client boundary) and `lib/health-analyzer.ts`
(health scorer).  Timestamps are rationals counting milliseconds, JavaScript
numbers that may be `Infinity` are the `JsNum` type, and the PostgreSQL
tables are lists of rows.  Remote responses and injected failures are
provided through an explicit `Env` value, mirroring the awaited calls of the
orchestrator.
-/

namespace MondayMermaid

/-- JavaScript number that is either finite or `Infinity`
(`cacheAge` can be `Infinity` in `cache-manager.ts`). -/
inductive JsNum where
  | num (q : ℚ)
  | inf
  deriving DecidableEq, Repr

/-- JavaScript `>` on a possibly-infinite number against a finite bound. -/
def JsNum.gtb : JsNum → ℚ → Bool
  | .inf, _ => true
  | .num q, c => decide (c < q)

/-- JavaScript `<` on a possibly-infinite number against a finite bound. -/
def JsNum.ltb : JsNum → ℚ → Bool
  | .inf, _ => false
  | .num q, c => decide (q < c)

-- =============================================================================
-- Configuration (`src/lib/config.ts`)
-- =============================================================================

/-- `config.priorityWorkspaces.workspaceNames`. -/
def priorityWorkspaceNames : List String :=
  ["CRM", "Production 2025", "Lab", "VRM - Purchasing"]

/-- `config.database.defaultTtlHours`. -/
def defaultTtlHours : ℚ := 24

/-- `config.health.inactiveDaysThreshold`. -/
def inactiveDaysThreshold : ℚ := 30

/-- `config.health.underutilizedItemsThreshold`. -/
def underutilizedItemsThreshold : Nat := 5

/-- `config.health.minBoardAgeForAnalysis`. -/
def minBoardAgeForAnalysis : ℚ := 7

-- =============================================================================
-- Remote (Monday.com) entities, as fetched by `lib/monday-api.ts`
-- =============================================================================

structure MondayWorkspace where
  id : String
  name : String
  deriving DecidableEq, Repr

structure MondayColumn where
  id : String
  title : String
  ctype : String
  deriving DecidableEq, Repr

structure MondayBoard where
  id : String
  workspaceId : Option String
  name : String
  state : String
  items_count : Nat
  updated_at : Option ℚ
  columns : List MondayColumn
  deriving DecidableEq, Repr

structure MondayUser where
  id : String
  name : String
  deriving DecidableEq, Repr

/-- One entry of the list returned by `mondayApi.getBoardConnections`:
a target board id discovered from a `connect_boards` or `mirror` column. -/
structure Connection where
  targetBoard : String
  ctype : String
  columnId : String
  deriving DecidableEq, Repr

-- =============================================================================
-- Store rows (`sql/schema.sql`) and the store (`src/lib/database.ts`)
-- =============================================================================

structure WorkspaceRow where
  id : String
  name : String
  deriving DecidableEq, Repr

structure BoardRow where
  id : String
  workspace_id : Option String
  name : String
  state : String
  items_count : Nat
  last_synced : ℚ
  deriving DecidableEq, Repr

structure ColumnRow where
  id : String
  board_id : String
  title : String
  ctype : String
  deriving DecidableEq, Repr

structure RelRow where
  source_board_id : String
  target_board_id : String
  relationship_type : String
  source_column_id : Option String
  target_column_id : Option String
  deriving DecidableEq, Repr

structure UserRow where
  id : String
  name : String
  deriving DecidableEq, Repr

structure SyncRun where
  sync_type : String
  workspace_id : Option String
  status : String
  records_processed : Nat
  records_created : Nat
  records_updated : Nat
  records_deleted : Nat
  error_message : Option String
  deriving DecidableEq, Repr

structure Store where
  workspaces : List WorkspaceRow
  boards : List BoardRow
  columns : List ColumnRow
  relationships : List RelRow
  users : List UserRow
  syncRuns : List SyncRun
  deriving DecidableEq, Repr

def emptyStore : Store := ⟨[], [], [], [], [], []⟩

-- =============================================================================
-- Store adapter operations (`src/lib/database.ts`)
-- =============================================================================

/-- `INSERT ... ON CONFLICT (id) DO UPDATE` for one workspace row. -/
def wsUpsert (w : MondayWorkspace) (l : List WorkspaceRow) : List WorkspaceRow :=
  if l.any (fun r => r.id == w.id) then
    l.map (fun r => if r.id == w.id then ⟨w.id, w.name⟩ else r)
  else l ++ [⟨w.id, w.name⟩]

/-- `saveWorkspaces` (`database.ts` 69-91): no-op on the empty list,
otherwise an id-keyed upsert of every row. -/
def saveWorkspaces (ws : List MondayWorkspace) (st : Store) : Store :=
  if ws.isEmpty then st
  else { st with workspaces := ws.foldl (fun l w => wsUpsert w l) st.workspaces }

def boardRowOf (now : ℚ) (b : MondayBoard) : BoardRow :=
  ⟨b.id, b.workspaceId, b.name, b.state, b.items_count, now⟩

/-- `INSERT ... ON CONFLICT (id) DO UPDATE` for one board row,
`last_synced = CURRENT_TIMESTAMP`. -/
def boardUpsert (now : ℚ) (b : MondayBoard) (l : List BoardRow) : List BoardRow :=
  if l.any (fun r => r.id == b.id) then
    l.map (fun r => if r.id == b.id then boardRowOf now b else r)
  else l ++ [boardRowOf now b]

/-- `saveBoards` (`database.ts` 115-147). -/
def saveBoards (now : ℚ) (bs : List MondayBoard) (st : Store) : Store :=
  if bs.isEmpty then st
  else { st with boards := bs.foldl (fun l b => boardUpsert now b l) st.boards }

def colRowOf (boardId : String) (c : MondayColumn) : ColumnRow :=
  ⟨c.id, boardId, c.title, c.ctype⟩

/-- `saveColumns` (`database.ts` 225-244): returns immediately when the
fetched list is empty; otherwise deletes the board's rows and reinserts. -/
def saveColumns (boardId : String) (cols : List MondayColumn) (st : Store) : Store :=
  if cols.isEmpty then st
  else { st with columns :=
    st.columns.filter (fun r => !(r.board_id == boardId)) ++ cols.map (colRowOf boardId) }

/-- `relationship.sourceColumn || null` — an empty (falsy) string becomes NULL. -/
def orNull : Option String → Option String
  | some t => if t == "" then none else some t
  | none => none

structure RelInput where
  sourceBoard : String
  targetBoard : String
  rtype : String
  sourceColumn : Option String
  targetColumn : Option String
  deriving DecidableEq, Repr

def relRowOf (r : RelInput) : RelRow :=
  ⟨r.sourceBoard, r.targetBoard, r.rtype, orNull r.sourceColumn, orNull r.targetColumn⟩

/-- PostgreSQL conflict test for
`UNIQUE(source_board_id, target_board_id, relationship_type, source_column_id)`:
rows with a NULL `source_column_id` never conflict (SQL NULL ≠ NULL). -/
def relConflict (a b : RelRow) : Bool :=
  a.source_board_id == b.source_board_id &&
  a.target_board_id == b.target_board_id &&
  a.relationship_type == b.relationship_type &&
  (match a.source_column_id, b.source_column_id with
   | some x, some y => x == y
   | _, _ => false)

/-- `DO UPDATE SET target_column_id = EXCLUDED.target_column_id, ...`
applied to the (unique) conflicting row. -/
def updateRelFirst (row : RelRow) : List RelRow → List RelRow
  | [] => []
  | x :: xs =>
    if relConflict x row then { x with target_column_id := row.target_column_id } :: xs
    else x :: updateRelFirst row xs

/-- `saveBoardRelationship` (`database.ts` 268-291): insert, or update on a
conflict of the natural key. -/
def saveBoardRelationship (r : RelInput) (st : Store) : Store :=
  let row := relRowOf r
  { st with relationships :=
      if st.relationships.any (fun x => relConflict x row) then
        updateRelFirst row st.relationships
      else st.relationships ++ [row] }

def userUpsert (u : MondayUser) (l : List UserRow) : List UserRow :=
  if l.any (fun r => r.id == u.id) then
    l.map (fun r => if r.id == u.id then ⟨u.id, u.name⟩ else r)
  else l ++ [⟨u.id, u.name⟩]

/-- `saveUsers` (`database.ts` 326-352). -/
def saveUsers (us : List MondayUser) (st : Store) : Store :=
  if us.isEmpty then st
  else { st with users := us.foldl (fun l u => userUpsert u l) st.users }

/-- `startSync` (`database.ts` 440-448): inserts a `running` sync_metadata row;
the returned id is the row's index in our list model. -/
def startSync (t : String) (wsid : Option String) (st : Store) : Store :=
  { st with syncRuns := st.syncRuns ++ [⟨t, wsid, "running", 0, 0, 0, 0, none⟩] }

def updateAt (i : Nat) (f : α → α) : List α → List α
  | [] => []
  | x :: xs =>
    match i with
    | 0 => f x :: xs
    | n + 1 => x :: updateAt n f xs

structure SyncStats where
  processed : Nat
  created : Nat
  updated : Nat
  deleted : Nat
  deriving DecidableEq, Repr

/-- `completeSync` (`database.ts` 450-466). -/
def completeSync (i : Nat) (s : SyncStats) (st : Store) : Store :=
  { st with syncRuns := updateAt i (fun r =>
      { r with status := "completed", records_processed := s.processed,
               records_created := s.created, records_updated := s.updated,
               records_deleted := s.deleted }) st.syncRuns }

/-- `failSync` (`database.ts` 468-476). -/
def failSync (i : Nat) (msg : String) (st : Store) : Store :=
  { st with syncRuns := updateAt i (fun r =>
      { r with status := "failed", error_message := some msg }) st.syncRuns }

-- =============================================================================
-- Read projection (`database.ts` 358-434)
-- =============================================================================

/-- `MAX(b.last_synced)` over `workspaces w LEFT JOIN boards b ON
w.id = b.workspace_id` (`getOrganizationOverview`): the most recent
`last_synced` among boards attached to a stored workspace, NULL if none. -/
def lastSyncTime (st : Store) : Option ℚ :=
  (st.boards.filter (fun b =>
      match b.workspace_id with
      | some w => st.workspaces.any (fun r => r.id == w)
      | none => false)).map (fun b => b.last_synced) |>.max?

structure OrgStructure where
  workspaces : List WorkspaceRow
  boards : List BoardRow
  relationships : List RelRow
  users : List UserRow
  lastScanned : ℚ
  deriving DecidableEq, Repr

/-- `getOrganizationalStructure`: current tables, relationships joined on both
board endpoints, and `lastScanned = overview.lastSyncTime || new Date()`. -/
def getOrganizationalStructure (now : ℚ) (st : Store) : OrgStructure :=
  ⟨st.workspaces, st.boards,
   st.relationships.filter (fun r =>
     st.boards.any (fun b => b.id == r.source_board_id) &&
     st.boards.any (fun b => b.id == r.target_board_id)),
   st.users,
   (lastSyncTime st).getD now⟩

-- =============================================================================
-- Cache status (`cache-manager.ts` 343-374)
-- =============================================================================

structure CacheStatus where
  isHealthy : Bool
  lastSync : Option ℚ
  totalBoards : Nat
  totalWorkspaces : Nat
  cacheAge : JsNum
  needsRefresh : Bool
  deriving DecidableEq, Repr

/-- `getCacheStatus`: the `try` branch computes freshness from the
organizational structure; the `catch` branch returns the fixed degraded
value.  The argument carries the outcome of `getOrganizationalStructure`. -/
def getCacheStatusOf (now : ℚ) : Except String OrgStructure → CacheStatus
  | .error _ => ⟨false, none, 0, 0, .inf, true⟩
  | .ok org =>
    let cacheAge : JsNum := .num ((now - org.lastScanned) / 3600000)
    ⟨decide (0 < org.workspaces.length) && decide (0 < org.boards.length),
     some org.lastScanned, org.boards.length, org.workspaces.length,
     cacheAge, JsNum.gtb cacheAge defaultTtlHours⟩

-- =============================================================================
-- Remote environment and fault injection
-- =============================================================================

/-- The remote API's responses and the failure behaviour of the awaited calls
inside one sync, as observed by the orchestrator.  `wsFault`, `boardFault`,
`usersFault` and `completeFault` inject an exception (with its message) at
the corresponding step of the sync body; `connFail` lists boards whose
`getBoardConnections` call throws (caught per board by discovery). -/
structure Env where
  mondayConnected : Bool
  dbConnected : Bool
  allWorkspaces : List MondayWorkspace
  boardsOf : List (String × List MondayBoard)
  users : List MondayUser
  connections : List (String × List Connection)
  connFail : List String
  wsFault : Option String
  boardFault : Option (Nat × String)
  usersFault : Option String
  completeFault : Option String
  deriving Repr

def lookupList (key : String) (l : List (String × List α)) : List α :=
  ((l.find? (fun p => p.1 == key)).map (fun p => p.2)).getD []

/-- `discoverPriorityWorkspaces` step 1 (`monday-api.ts` 71-74):
all workspaces filtered to the configured priority names. -/
def priorityWs (env : Env) : List MondayWorkspace :=
  env.allWorkspaces.filter (fun w => priorityWorkspaceNames.contains w.name)

/-- `discoverPriorityWorkspaces` step 3: the boards of every priority
workspace, in workspace order. -/
def discoveredBoards (env : Env) : List MondayBoard :=
  ((priorityWs env).map (fun w => lookupList w.id env.boardsOf)).flatten

-- =============================================================================
-- Relationship discovery (`cache-manager.ts` 184-222)
-- =============================================================================

/-- The relationship persisted for one discovered connection:
`type: connection.type || 'connect'`, `sourceColumn: connection.columnId`. -/
def mkRelInput (boardId : String) (c : Connection) : RelInput :=
  ⟨boardId, c.targetBoard, if c.ctype == "" then "connect" else c.ctype,
   some c.columnId, none⟩

/-- Inner loop of `syncPriorityBoardRelationships` for one board: skipped
entirely when `getBoardConnections` throws (per-board catch); otherwise each
connection whose target is in the synced board set is upserted. -/
def discoverBoard (env : Env) (boards : List MondayBoard) (b : MondayBoard)
    (st : Store) : Store :=
  if env.connFail.contains b.id then st
  else (lookupList b.id env.connections).foldl (fun acc c =>
    if boards.any (fun b2 => b2.id == c.targetBoard) then
      saveBoardRelationship (mkRelInput b.id c) acc
    else acc) st

/-- `syncPriorityBoardRelationships`. -/
def syncPriorityBoardRelationships (env : Env) (boards : List MondayBoard)
    (st : Store) : Store :=
  boards.foldl (fun acc b => discoverBoard env boards b acc) st

-- =============================================================================
-- Sync orchestrator (`cache-manager.ts`)
-- =============================================================================

/-- Outcome of one orchestrator entry point.  `flagDuring` is the value the
shared `issyncing` flag holds while the entry point's body runs its awaited
steps (`none` when the call is rejected before any work), `flagAfter` its
value once the call returns or throws. -/
structure SyncOutcome (α : Type) where
  flagDuring : Option Bool
  flagAfter : Bool
  store : Store
  result : Except String α
  deriving Repr

/-- Per-board step of the sync loop (`cache-manager.ts` 77-85):
`saveBoards([board])` then `saveColumns(board.id, board.columns)`. -/
def stepBoard (now : ℚ) (b : MondayBoard) (st : Store) : Store :=
  saveColumns b.id b.columns (saveBoards now [b] st)

/-- The board loop without faults. -/
def boardsPass (now : ℚ) : List MondayBoard → Store → Store
  | [], st => st
  | b :: bs, st => boardsPass now bs (stepBoard now b st)

/-- The board loop with an optional injected exception before processing the
board at the given index; on error it carries the store at the throw point. -/
def boardLoop (fault : Option (Nat × String)) (now : ℚ) :
    List MondayBoard → Nat → Store → Except (String × Store) Store
  | [], _, st => .ok st
  | b :: bs, k, st =>
    match fault with
    | some (j, m) =>
      if j == k then .error (m, st)
      else boardLoop fault now bs (k + 1) (stepBoard now b st)
    | none => boardLoop none now bs (k + 1) (stepBoard now b st)

/-- The `try` body of `priorityWorkspaceSync` (`cache-manager.ts` 40-107),
run after the Sync Run `syncId` has been created.  On an exception the error
carries the store at the throw point. -/
def runBody (env : Env) (now : ℚ) (syncId : Nat) (st : Store) :
    Except (String × Store) (Store × OrgStructure) :=
  if !env.mondayConnected then .error ("Monday.com API connection failed", st)
  else if !env.dbConnected then .error ("Database connection failed", st)
  else
    let pws := priorityWs env
    if pws.isEmpty then .error ("No priority workspaces found", st)
    else
      match env.wsFault with
      | some m => .error (m, st)
      | none =>
        let bds := discoveredBoards env
        let st1 := saveWorkspaces pws st
        match boardLoop env.boardFault now bds 0 st1 with
        | .error e => .error e
        | .ok st2 =>
          match env.usersFault with
          | some m => .error (m, st2)
          | none =>
            let st3 := saveUsers env.users st2
            let st4 := syncPriorityBoardRelationships env bds st3
            match env.completeFault with
            | some m => .error (m, st4)
            | none =>
              let st5 := completeSync syncId
                ⟨pws.length + bds.length + env.users.length, bds.length, 0, 0⟩ st4
              .ok (st5, getOrganizationalStructure now st5)

/-- `priorityWorkspaceSync` (the target of `fullSync`): rejects when the flag
is set, otherwise sets the flag, creates a Sync Run, runs the body, marks the
run failed and re-raises on an exception, and clears the flag in `finally`. -/
def priorityWorkspaceSync (flag : Bool) (env : Env) (now : ℚ) (st : Store) :
    SyncOutcome OrgStructure :=
  if flag then ⟨none, flag, st, .error "Sync already in progress"⟩
  else
    let syncId := st.syncRuns.length
    let st1 := startSync "priority_workspace_sync" none st
    match runBody env now syncId st1 with
    | .ok (st2, org) => ⟨some true, false, st2, .ok org⟩
    | .error (m, st2) => ⟨some true, false, failSync syncId m st2, .error m⟩

/-- Inner pass of `incrementalSync` (`cache-manager.ts` 145-156): per priority
workspace, save every active board and its columns, counting updates. -/
def incPass (now : ℚ) (env : Env) : List MondayWorkspace → Store × Nat → Store × Nat
  | [], acc => acc
  | w :: ws, (st, n) =>
    let bds := (lookupList w.id env.boardsOf).filter (fun b => b.state == "active")
    incPass now env ws (boardsPass now bds st, n + bds.length)

/-- `incrementalSync` (`cache-manager.ts` 123-178). -/
def incrementalSync (flag : Bool) (env : Env) (now : ℚ) (st : Store) :
    SyncOutcome OrgStructure :=
  if flag then ⟨none, flag, st, .error "Sync already in progress"⟩
  else
    let syncId := st.syncRuns.length
    let st1 := startSync "incremental_priority_sync" none st
    let pws := priorityWs env
    if pws.isEmpty then
      ⟨some true, false,
       failSync syncId "No priority workspaces found for incremental sync" st1,
       .error "No priority workspaces found for incremental sync"⟩
    else
      let (st2, n) := incPass now env pws (st1, 0)
      let st3 := completeSync syncId ⟨n, 0, n, 0⟩ st2
      ⟨some true, false, st3, .ok (getOrganizationalStructure now st3)⟩

/-- `syncSpecificPriorityWorkspace` (`cache-manager.ts` 228-279): validates
the name, checks the flag, but — unlike the other entry points — never
assigns `this.issyncing = true` and has no `finally`, so the flag keeps its
incoming value while the body runs. -/
def syncSpecificPriorityWorkspace (name : String) (flag : Bool) (env : Env)
    (now : ℚ) (st : Store) : SyncOutcome Unit :=
  if !(priorityWorkspaceNames.contains name) then
    ⟨none, flag, st, .error (name ++ " is not a priority workspace")⟩
  else if flag then ⟨none, flag, st, .error "Sync already in progress"⟩
  else
    let syncId := st.syncRuns.length
    let st1 := startSync "specific_priority_workspace_sync" (some name) st
    match env.allWorkspaces.find? (fun w => w.name == name) with
    | none =>
      ⟨some flag, flag,
       failSync syncId ("Priority workspace " ++ name ++ " not found in Monday.com") st1,
       .error ("Priority workspace " ++ name ++ " not found in Monday.com")⟩
    | some w =>
      let bds := lookupList w.id env.boardsOf
      let st2 := saveWorkspaces [w] st1
      let st3 := boardsPass now bds st2
      let st4 := completeSync syncId ⟨bds.length + 1, 0, bds.length + 1, 0⟩ st3
      ⟨some flag, flag, st4, .ok ()⟩

-- =============================================================================
-- Smart sync (`cache-manager.ts` 321-337)
-- =============================================================================

inductive Strategy where
  | full
  | incremental
  | cached
  deriving DecidableEq, Repr

/-- The dispatch of `smartSync` on a cache status. -/
def smartSyncChoice (s : CacheStatus) : Strategy :=
  if !s.isHealthy || JsNum.gtb s.cacheAge 48 then .full
  else if s.needsRefresh then .incremental
  else .cached

/-- The cache status `smartSync` reads (successful store read). -/
def statusOf (now : ℚ) (st : Store) : CacheStatus :=
  getCacheStatusOf now (.ok (getOrganizationalStructure now st))

/-- `smartSync`: reads freshness and dispatches; the cached branch only
re-reads the store. -/
def smartSync (flag : Bool) (env : Env) (now : ℚ) (st : Store) :
    SyncOutcome OrgStructure × Strategy :=
  match smartSyncChoice (statusOf now st) with
  | .full => (priorityWorkspaceSync flag env now st, .full)
  | .incremental => (incrementalSync flag env now st, .incremental)
  | .cached => (⟨none, flag, st, .ok (getOrganizationalStructure now st)⟩, .cached)

-- =============================================================================
-- Health scorer (`lib/health-analyzer.ts`)
-- =============================================================================

inductive BoardStatus where
  | healthy
  | warning
  | inactive
  | abandoned
  deriving DecidableEq, Repr

/-- `analyzeBoardHealth` (`health-analyzer.ts` 60-135), reduced to the
resulting classification. -/
def analyzeBoardHealth (now : ℚ) (b : MondayBoard) : BoardStatus :=
  let createdAt := b.updated_at.getD now
  let boardAge := (now - createdAt) / 86400000
  if boardAge < minBoardAgeForAnalysis then .healthy
  else
    let daysSince : JsNum :=
      match b.updated_at with
      | some t => .num ((now - t) / 86400000)
      | none => .inf
    let s1 : BoardStatus :=
      if JsNum.gtb daysSince (inactiveDaysThreshold * 2) then .abandoned
      else if JsNum.gtb daysSince inactiveDaysThreshold then .inactive
      else .healthy
    let s2 : BoardStatus :=
      if b.items_count == 0 && decide (7 < boardAge) then
        (if s1 = .healthy then .warning else s1)
      else if decide (b.items_count < underutilizedItemsThreshold) && decide (14 < boardAge) then
        (if s1 = .healthy then .warning else s1)
      else s1
    let s3 : BoardStatus :=
      if b.state == "archived" || b.state == "deleted" then .abandoned else s2
    if decide (20 < b.items_count) && JsNum.ltb daysSince 7 then .healthy else s3

/-- JavaScript `Math.round` on a non-negative rational: round half up. -/
def jsRound (q : ℚ) : ℤ := ⌊q + 1 / 2⌋

structure WorkspaceHealth where
  boardsHealthy : Nat
  totalBoards : Nat
  overallScore : ℤ
  deriving DecidableEq, Repr

/-- `analyzeWorkspaceHealth` (`health-analyzer.ts` 137-187): filters the
workspace's boards, classifies them, and computes
`Math.round((healthyRatio * 50 + activeRatio * 30 + utilizationRatio * 20) * 100)`
(0 when the workspace has no boards). -/
def analyzeWorkspaceHealth (now : ℚ) (w : MondayWorkspace)
    (allBoards : List MondayBoard) : WorkspaceHealth :=
  let wsBoards := allBoards.filter (fun b => b.workspaceId == some w.id)
  let n := wsBoards.length
  let healthy := (wsBoards.filter (fun b => analyzeBoardHealth now b = .healthy)).length
  if n = 0 then ⟨healthy, n, 0⟩
  else
    let active := (wsBoards.filter (fun b => b.state == "active")).length
    let items : ℚ := wsBoards.foldl (fun acc b => acc + b.items_count) 0
    let healthyRatio : ℚ := (healthy : ℚ) / n
    let activeRatio : ℚ := (active : ℚ) / n
    let utilizationRatio : ℚ := min (items / ((n : ℚ) * 10)) 1
    ⟨healthy, n,
     jsRound ((healthyRatio * 50 + activeRatio * 30 + utilizationRatio * 20) * 100)⟩

-- =============================================================================
-- Concrete data for the example scenario and witnesses
-- =============================================================================

/-- Scenario remote dataset: 2 priority workspaces, 5 boards (3 active, 2
archived) and one mirror-column edge from board A to board B. -/
def envScenario : Env :=
  { mondayConnected := true
    dbConnected := true
    allWorkspaces := [⟨"w1", "CRM"⟩, ⟨"w2", "Lab"⟩, ⟨"w3", "Other"⟩]
    boardsOf :=
      [("w1",
        [⟨"A", some "w1", "Board A", "active", 12, some 0, [⟨"colA", "Mirror of B", "mirror"⟩]⟩,
         ⟨"B", some "w1", "Board B", "active", 3, some 0, [⟨"colB", "Status", "status"⟩]⟩,
         ⟨"C", some "w1", "Board C", "active", 0, none, []⟩]),
       ("w2",
        [⟨"D", some "w2", "Board D", "archived", 5, some 0, [⟨"colD", "Text", "text"⟩]⟩,
         ⟨"E", some "w2", "Board E", "archived", 0, none, []⟩])]
    users := [⟨"u1", "User One"⟩]
    connections := [("A", [⟨"B", "mirror", "colA"⟩])]
    connFail := []
    wsFault := none
    boardFault := none
    usersFault := none
    completeFault := none }

/-- Wall-clock instant (ms) used by the scenario runs. -/
def nowScenario : ℚ := 7200000

/-- The scenario's full sync from the empty store. -/
def scenarioRun : SyncOutcome OrgStructure :=
  priorityWorkspaceSync false envScenario nowScenario emptyStore

def isOkE : Except ε α → Bool
  | .ok _ => true
  | .error _ => false

/-- A store already holding one column row for board `b1`. -/
def stWithCol : Store :=
  { emptyStore with columns := [⟨"c1", "b1", "Title", "text"⟩] }

/-- The scenario dataset with an exception injected into `saveUsers`. -/
def envUsersFault : Env := { envScenario with usersFault := some "saveUsers exploded" }

/-- Discovery input where the edge to board B is discovered twice and a third
edge targets a board outside the synced set. -/
def envDupEdges : Env :=
  { envScenario with connections :=
      [("A", [⟨"B", "mirror", "colA"⟩, ⟨"B", "mirror", "colA"⟩, ⟨"X", "connect", "colZ"⟩])] }

/-- A store whose only board is fresh (synced at the current instant), making
`smartSync` take the cached branch. -/
def stFresh : Store :=
  { emptyStore with
      workspaces := [⟨"w1", "CRM"⟩]
      boards := [⟨"A", some "w1", "Board A", "active", 3, 0⟩] }

-- =============================================================================
-- Derived definitions used by the verification
-- =============================================================================

/-- Whether the store has a board row with the given id. -/
def hasBoard (st : Store) (x : String) : Bool :=
  st.boards.any (fun r => r.id == x)

/-- Whether the store has a workspace row with the given id. -/
def hasWs (st : Store) (x : String) : Bool :=
  st.workspaces.any (fun r => r.id == x)

/-- The natural key of a relationship row. -/
def relKey (r : RelRow) : String × String × String × Option String :=
  (r.source_board_id, r.target_board_id, r.relationship_type, r.source_column_id)

/-- `relConflict` as a function of the first row's key. -/
def keyConflict (k : String × String × String × Option String) (row : RelRow) : Bool :=
  k.1 == row.source_board_id &&
  k.2.1 == row.target_board_id &&
  k.2.2.1 == row.relationship_type &&
  (match k.2.2.2, row.source_column_id with
   | some x, some y => x == y
   | _, _ => false)

/-- The relationship inputs one board's discovery pass actually persists:
none when `getBoardConnections` throws for it, otherwise the connections
whose target board is in the synced set. -/
def keptOf (env : Env) (boards : List MondayBoard) (b : MondayBoard) : List RelInput :=
  if env.connFail.contains b.id then []
  else ((lookupList b.id env.connections).filter
    (fun c => boards.any (fun b2 => b2.id == c.targetBoard))).map (mkRelInput b.id)

/-- All relationship inputs one discovery pass persists, in order. -/
def keptList (env : Env) (boards : List MondayBoard) : List RelInput :=
  (boards.map (keptOf env boards)).flatten

/-- Running a list of relationship upserts in order. -/
def foldSave (l : List RelInput) (st : Store) : Store :=
  l.foldl (fun acc i => saveBoardRelationship i acc) st

/-- The ids of the boards whose fetched column set is nonempty — exactly the
boards whose stored columns a sync pass replaces. -/
def nonemptyIds (bs : List MondayBoard) : List String :=
  (bs.filter (fun b => !b.columns.isEmpty)).map (fun b => b.id)

/-- The column rows a sync pass writes, in order. -/
def colRowsOf (bs : List MondayBoard) : List ColumnRow :=
  ((bs.filter (fun b => !b.columns.isEmpty)).map
    (fun b => b.columns.map (colRowOf b.id))).flatten

/-- The store a fault-free `priorityWorkspaceSync` run over `env` produces. -/
def noFaultStore (env : Env) (now : ℚ) (st : Store) : Store :=
  let pws := priorityWs env
  let bds := discoveredBoards env
  let st1 := startSync "priority_workspace_sync" none st
  let st2 := saveWorkspaces pws st1
  let st3 := boardsPass now bds st2
  let st4 := saveUsers env.users st3
  let st5 := syncPriorityBoardRelationships env bds st4
  completeSync st.syncRuns.length
    ⟨pws.length + bds.length + env.users.length, bds.length, 0, 0⟩ st5

-- =============================================================================
-- Theorems
-- =============================================================================

-- Component-preservation facts for the store operations.

theorem saveWorkspaces_boards (ws : List MondayWorkspace) (st : Store) :
    (saveWorkspaces ws st).boards = st.boards := by
  unfold saveWorkspaces
  split <;> rfl

theorem saveWorkspaces_columns (ws : List MondayWorkspace) (st : Store) :
    (saveWorkspaces ws st).columns = st.columns := by
  unfold saveWorkspaces
  split <;> rfl

theorem saveWorkspaces_relationships (ws : List MondayWorkspace) (st : Store) :
    (saveWorkspaces ws st).relationships = st.relationships := by
  unfold saveWorkspaces
  split <;> rfl

theorem saveWorkspaces_syncRuns (ws : List MondayWorkspace) (st : Store) :
    (saveWorkspaces ws st).syncRuns = st.syncRuns := by
  unfold saveWorkspaces
  split <;> rfl

theorem saveBoards_workspaces (now : ℚ) (bs : List MondayBoard) (st : Store) :
    (saveBoards now bs st).workspaces = st.workspaces := by
  unfold saveBoards
  split <;> rfl

theorem saveBoards_columns (now : ℚ) (bs : List MondayBoard) (st : Store) :
    (saveBoards now bs st).columns = st.columns := by
  unfold saveBoards
  split <;> rfl

theorem saveBoards_relationships (now : ℚ) (bs : List MondayBoard) (st : Store) :
    (saveBoards now bs st).relationships = st.relationships := by
  unfold saveBoards
  split <;> rfl

theorem saveBoards_syncRuns (now : ℚ) (bs : List MondayBoard) (st : Store) :
    (saveBoards now bs st).syncRuns = st.syncRuns := by
  unfold saveBoards
  split <;> rfl

theorem saveColumns_boards (bid : String) (cols : List MondayColumn) (st : Store) :
    (saveColumns bid cols st).boards = st.boards := by
  unfold saveColumns
  split <;> rfl

theorem saveColumns_workspaces (bid : String) (cols : List MondayColumn) (st : Store) :
    (saveColumns bid cols st).workspaces = st.workspaces := by
  unfold saveColumns
  split <;> rfl

theorem saveColumns_relationships (bid : String) (cols : List MondayColumn) (st : Store) :
    (saveColumns bid cols st).relationships = st.relationships := by
  unfold saveColumns
  split <;> rfl

theorem saveColumns_syncRuns (bid : String) (cols : List MondayColumn) (st : Store) :
    (saveColumns bid cols st).syncRuns = st.syncRuns := by
  unfold saveColumns
  split <;> rfl

theorem saveUsers_boards (us : List MondayUser) (st : Store) :
    (saveUsers us st).boards = st.boards := by
  unfold saveUsers
  split <;> rfl

theorem saveUsers_workspaces (us : List MondayUser) (st : Store) :
    (saveUsers us st).workspaces = st.workspaces := by
  unfold saveUsers
  split <;> rfl

theorem saveUsers_columns (us : List MondayUser) (st : Store) :
    (saveUsers us st).columns = st.columns := by
  unfold saveUsers
  split <;> rfl

theorem saveUsers_relationships (us : List MondayUser) (st : Store) :
    (saveUsers us st).relationships = st.relationships := by
  unfold saveUsers
  split <;> rfl

theorem saveUsers_syncRuns (us : List MondayUser) (st : Store) :
    (saveUsers us st).syncRuns = st.syncRuns := by
  unfold saveUsers
  split <;> rfl

theorem saveBoardRelationship_boards (r : RelInput) (st : Store) :
    (saveBoardRelationship r st).boards = st.boards := rfl

theorem saveBoardRelationship_workspaces (r : RelInput) (st : Store) :
    (saveBoardRelationship r st).workspaces = st.workspaces := rfl

theorem saveBoardRelationship_columns (r : RelInput) (st : Store) :
    (saveBoardRelationship r st).columns = st.columns := rfl

theorem saveBoardRelationship_syncRuns (r : RelInput) (st : Store) :
    (saveBoardRelationship r st).syncRuns = st.syncRuns := rfl

theorem stepBoard_workspaces (now : ℚ) (b : MondayBoard) (st : Store) :
    (stepBoard now b st).workspaces = st.workspaces := by
  unfold stepBoard
  rw [saveColumns_workspaces, saveBoards_workspaces]

theorem stepBoard_relationships (now : ℚ) (b : MondayBoard) (st : Store) :
    (stepBoard now b st).relationships = st.relationships := by
  unfold stepBoard
  rw [saveColumns_relationships, saveBoards_relationships]

theorem stepBoard_syncRuns (now : ℚ) (b : MondayBoard) (st : Store) :
    (stepBoard now b st).syncRuns = st.syncRuns := by
  unfold stepBoard
  rw [saveColumns_syncRuns, saveBoards_syncRuns]

theorem stepBoard_boards (now : ℚ) (b : MondayBoard) (st : Store) :
    (stepBoard now b st).boards = boardUpsert now b st.boards := by
  unfold stepBoard saveBoards
  rw [saveColumns_boards]
  rfl

theorem boardsPass_workspaces (now : ℚ) (bs : List MondayBoard) :
    ∀ st : Store, (boardsPass now bs st).workspaces = st.workspaces := by
  induction bs with
  | nil => intro st; rfl
  | cons b rest ih =>
    intro st
    rw [boardsPass, ih, stepBoard_workspaces]

theorem boardsPass_relationships (now : ℚ) (bs : List MondayBoard) :
    ∀ st : Store, (boardsPass now bs st).relationships = st.relationships := by
  induction bs with
  | nil => intro st; rfl
  | cons b rest ih =>
    intro st
    rw [boardsPass, ih, stepBoard_relationships]

theorem boardsPass_syncRuns (now : ℚ) (bs : List MondayBoard) :
    ∀ st : Store, (boardsPass now bs st).syncRuns = st.syncRuns := by
  induction bs with
  | nil => intro st; rfl
  | cons b rest ih =>
    intro st
    rw [boardsPass, ih, stepBoard_syncRuns]

-- Board-id presence facts.

theorem boardUpsert_hasSelf (now : ℚ) (b : MondayBoard) (l : List BoardRow) :
    (boardUpsert now b l).any (fun r => r.id == b.id) = true := by
  unfold boardUpsert
  split
  next h =>
    rw [List.any_eq_true] at h ⊢
    obtain ⟨r, hr, hid⟩ := h
    refine ⟨boardRowOf now b, ?_, ?_⟩
    · rw [List.mem_map]
      exact ⟨r, hr, by rw [if_pos hid]⟩
    · simp [boardRowOf]
  next h =>
    rw [List.any_eq_true]
    exact ⟨boardRowOf now b, by simp, by simp [boardRowOf]⟩

theorem boardUpsert_map_id (now : ℚ) (b : MondayBoard) (l : List BoardRow)
    (h : l.any (fun r => r.id == b.id) = true) :
    (boardUpsert now b l).map (fun r => r.id) = l.map (fun r => r.id) := by
  unfold boardUpsert
  rw [if_pos h, List.map_map]
  apply List.map_congr_left
  intro r _
  by_cases hc : (r.id == b.id) = true
  · simp only [Function.comp, hc, if_pos]
    rw [beq_iff_eq] at hc
    simp [boardRowOf, hc]
  · simp only [Function.comp, if_neg hc]

theorem boardUpsert_hasMono (now : ℚ) (b : MondayBoard) (l : List BoardRow)
    (x : String) (h : l.any (fun r => r.id == x) = true) :
    (boardUpsert now b l).any (fun r => r.id == x) = true := by
  unfold boardUpsert
  split
  next hc =>
    rw [List.any_eq_true] at h ⊢
    obtain ⟨r, hr, hid⟩ := h
    by_cases hb : (r.id == b.id) = true
    · refine ⟨boardRowOf now b, ?_, ?_⟩
      · rw [List.mem_map]
        exact ⟨r, hr, by rw [if_pos hb]⟩
      · rw [beq_iff_eq] at hb hid ⊢
        simp [boardRowOf, ← hb, hid]
    · refine ⟨r, ?_, hid⟩
      rw [List.mem_map]
      exact ⟨r, hr, by rw [if_neg hb]⟩
  next hc =>
    rw [List.any_append, h, Bool.true_or]

theorem hasBoard_stepBoard_self (now : ℚ) (b : MondayBoard) (st : Store) :
    hasBoard (stepBoard now b st) b.id = true := by
  unfold hasBoard
  rw [stepBoard_boards]
  exact boardUpsert_hasSelf now b st.boards

theorem hasBoard_stepBoard_mono (now : ℚ) (b : MondayBoard) (st : Store)
    (x : String) (h : hasBoard st x = true) :
    hasBoard (stepBoard now b st) x = true := by
  unfold hasBoard at h ⊢
  rw [stepBoard_boards]
  exact boardUpsert_hasMono now b st.boards x h

theorem hasBoard_boardsPass_mono (now : ℚ) (bs : List MondayBoard) :
    ∀ (st : Store) (x : String), hasBoard st x = true →
      hasBoard (boardsPass now bs st) x = true := by
  induction bs with
  | nil => intro st x h; exact h
  | cons b rest ih =>
    intro st x h
    rw [boardsPass]
    exact ih _ x (hasBoard_stepBoard_mono now b st x h)

theorem hasBoard_boardsPass_all (now : ℚ) (bs : List MondayBoard) :
    ∀ (st : Store), ∀ b ∈ bs, hasBoard (boardsPass now bs st) b.id = true := by
  induction bs with
  | nil => intro st b hb; exact absurd hb (List.not_mem_nil b)
  | cons c rest ih =>
    intro st b hb
    rw [boardsPass]
    rcases List.mem_cons.mp hb with h | h
    · subst h
      exact hasBoard_boardsPass_mono now rest _ b.id (hasBoard_stepBoard_self now b st)
    · exact ih _ b h

-- The board loop with and without an injected fault.

theorem boardLoop_none_eq (now : ℚ) (bs : List MondayBoard) :
    ∀ (k : Nat) (st : Store),
      boardLoop none now bs k st = .ok (boardsPass now bs st) := by
  induction bs with
  | nil => intro k st; rfl
  | cons b rest ih =>
    intro k st
    rw [boardLoop, boardsPass]
    exact ih (k + 1) (stepBoard now b st)

theorem boardLoop_err (fault : Option (Nat × String)) (now : ℚ)
    (bs : List MondayBoard) :
    ∀ (k : Nat) (st st2 : Store) (m : String),
      boardLoop fault now bs k st = .error (m, st2) →
      st2.syncRuns = st.syncRuns ∧ st2.workspaces = st.workspaces ∧
      (∀ x, hasBoard st x = true → hasBoard st2 x = true) := by
  induction bs with
  | nil =>
    intro k st st2 m h
    exact absurd h (by simp [boardLoop])
  | cons b rest ih =>
    intro k st st2 m h
    match hf : fault with
    | some (j, mm) =>
      simp only [boardLoop] at h
      by_cases hjk : (j == k) = true
      · rw [if_pos hjk] at h
        simp only [Except.error.injEq, Prod.mk.injEq] at h
        obtain ⟨h1, h2⟩ := h
        subst h2
        exact ⟨rfl, rfl, fun x hx => hx⟩
      · rw [if_neg hjk] at h
        obtain ⟨h1, h2, h3⟩ := ih (k + 1) (stepBoard now b st) st2 m h
        refine ⟨by rw [h1, stepBoard_syncRuns], by rw [h2, stepBoard_workspaces], ?_⟩
        intro x hx
        exact h3 x (hasBoard_stepBoard_mono now b st x hx)
    | none =>
      rw [boardLoop_none_eq] at h
      exact absurd h (by simp)

theorem boardLoop_ok (fault : Option (Nat × String)) (now : ℚ)
    (bs : List MondayBoard) :
    ∀ (k : Nat) (st st2 : Store),
      boardLoop fault now bs k st = .ok st2 →
      st2.syncRuns = st.syncRuns ∧ st2.workspaces = st.workspaces ∧
      (∀ x, hasBoard st x = true → hasBoard st2 x = true) := by
  induction bs with
  | nil =>
    intro k st st2 h
    simp only [boardLoop, Except.ok.injEq] at h
    subst h
    exact ⟨rfl, rfl, fun x hx => hx⟩
  | cons b rest ih =>
    intro k st st2 h
    match hf : fault with
    | some (j, mm) =>
      simp only [boardLoop] at h
      by_cases hjk : (j == k) = true
      · rw [if_pos hjk] at h
        exact absurd h (by simp)
      · rw [if_neg hjk] at h
        obtain ⟨h1, h2, h3⟩ := ih (k + 1) (stepBoard now b st) st2 h
        refine ⟨by rw [h1, stepBoard_syncRuns], by rw [h2, stepBoard_workspaces], ?_⟩
        intro x hx
        exact h3 x (hasBoard_stepBoard_mono now b st x hx)
    | none =>
      rw [boardLoop_none_eq] at h
      cases h
      refine ⟨boardsPass_syncRuns now _ st, boardsPass_workspaces now _ st, ?_⟩
      intro x hx
      exact hasBoard_boardsPass_mono now _ st x hx

-- Sync-run bookkeeping helpers.

theorem updateAt_getElem (f : α → α) (l : List α) :
    ∀ i : Nat, (updateAt i f l)[i]? = (l[i]?).map f := by
  induction l with
  | nil => intro i; cases i <;> simp [updateAt]
  | cons x xs ih =>
    intro i
    cases i with
    | zero => simp [updateAt]
    | succ n => simp [updateAt, ih n]

theorem getElem_append_singleton (l : List α) (a : α) :
    (l ++ [a])[l.length]? = some a := by
  induction l with
  | nil => rfl
  | cons x xs ih => simp [ih]

theorem relFold_syncRuns (l : List Connection) (p : Connection → Bool)
    (g : Connection → RelInput) :
    ∀ st : Store,
      (l.foldl (fun acc c => if p c then saveBoardRelationship (g c) acc else acc)
        st).syncRuns = st.syncRuns := by
  induction l with
  | nil => intro st; rfl
  | cons c rest ih =>
    intro st
    show (rest.foldl _ (if p c then saveBoardRelationship (g c) st else st)).syncRuns = _
    rw [ih]
    by_cases hc : p c = true
    · rw [if_pos hc, saveBoardRelationship_syncRuns]
    · rw [if_neg hc]

theorem relFold_boards (l : List Connection) (p : Connection → Bool)
    (g : Connection → RelInput) :
    ∀ st : Store,
      (l.foldl (fun acc c => if p c then saveBoardRelationship (g c) acc else acc)
        st).boards = st.boards := by
  induction l with
  | nil => intro st; rfl
  | cons c rest ih =>
    intro st
    show (rest.foldl _ (if p c then saveBoardRelationship (g c) st else st)).boards = _
    rw [ih]
    by_cases hc : p c = true
    · rw [if_pos hc, saveBoardRelationship_boards]
    · rw [if_neg hc]

theorem discoverBoard_syncRuns (env : Env) (bs : List MondayBoard)
    (b : MondayBoard) (st : Store) :
    (discoverBoard env bs b st).syncRuns = st.syncRuns := by
  unfold discoverBoard
  split
  · rfl
  · exact relFold_syncRuns _ _ _ st

theorem discoverBoard_boards (env : Env) (bs : List MondayBoard)
    (b : MondayBoard) (st : Store) :
    (discoverBoard env bs b st).boards = st.boards := by
  unfold discoverBoard
  split
  · rfl
  · exact relFold_boards _ _ _ st

theorem discovery_syncRuns (env : Env) (bs bs2 : List MondayBoard) :
    ∀ st : Store,
      (bs2.foldl (fun acc b => discoverBoard env bs b acc) st).syncRuns = st.syncRuns := by
  induction bs2 with
  | nil => intro st; rfl
  | cons b rest ih =>
    intro st
    show (rest.foldl _ (discoverBoard env bs b st)).syncRuns = _
    rw [ih, discoverBoard_syncRuns]

theorem discovery_boards (env : Env) (bs bs2 : List MondayBoard) :
    ∀ st : Store,
      (bs2.foldl (fun acc b => discoverBoard env bs b acc) st).boards = st.boards := by
  induction bs2 with
  | nil => intro st; rfl
  | cons b rest ih =>
    intro st
    show (rest.foldl _ (discoverBoard env bs b st)).boards = _
    rw [ih, discoverBoard_boards]

theorem syncPriorityBoardRelationships_syncRuns (env : Env)
    (bs : List MondayBoard) (st : Store) :
    (syncPriorityBoardRelationships env bs st).syncRuns = st.syncRuns :=
  discovery_syncRuns env bs bs st

theorem syncPriorityBoardRelationships_boards (env : Env)
    (bs : List MondayBoard) (st : Store) :
    (syncPriorityBoardRelationships env bs st).boards = st.boards :=
  discovery_boards env bs bs st

theorem hasBoard_of_boards_eq {st st2 : Store} (h : st2.boards = st.boards)
    (x : String) (hx : hasBoard st x = true) : hasBoard st2 x = true := by
  unfold hasBoard at hx ⊢
  rw [h]
  exact hx

/-- Whatever step of the `try` body throws, the store at the throw point has
the Sync Run history it started with, and every board id present when the
body started is still present. -/
theorem runBody_err (env : Env) (now : ℚ) (syncId : Nat) (st : Store)
    (m : String) (st2 : Store)
    (h : runBody env now syncId st = .error (m, st2)) :
    st2.syncRuns = st.syncRuns ∧
    (∀ x, hasBoard st x = true → hasBoard st2 x = true) := by
  simp only [runBody] at h
  cases hm : env.mondayConnected with
  | false =>
    simp only [hm, Bool.not_false, if_true, Except.error.injEq, Prod.mk.injEq] at h
    obtain ⟨h1, h2⟩ := h
    subst h2
    exact ⟨rfl, fun x hx => hx⟩
  | true =>
  simp only [hm, Bool.not_true, Bool.false_eq_true, if_false] at h
  cases hd : env.dbConnected with
  | false =>
    simp only [hd, Bool.not_false, if_true, Except.error.injEq, Prod.mk.injEq] at h
    obtain ⟨h1, h2⟩ := h
    subst h2
    exact ⟨rfl, fun x hx => hx⟩
  | true =>
  simp only [hd, Bool.not_true, Bool.false_eq_true, if_false] at h
  cases hp : (priorityWs env).isEmpty with
  | true =>
    simp only [hp, if_true, Except.error.injEq, Prod.mk.injEq] at h
    obtain ⟨h1, h2⟩ := h
    subst h2
    exact ⟨rfl, fun x hx => hx⟩
  | false =>
  simp only [hp, Bool.false_eq_true, if_false] at h
  cases hw : env.wsFault with
  | some mw =>
    simp only [hw, Except.error.injEq, Prod.mk.injEq] at h
    obtain ⟨h1, h2⟩ := h
    subst h2
    exact ⟨rfl, fun x hx => hx⟩
  | none =>
  simp only [hw] at h
  cases hb : boardLoop env.boardFault now (discoveredBoards env) 0
      (saveWorkspaces (priorityWs env) st) with
  | error e =>
    obtain ⟨me, se⟩ := e
    simp only [hb, Except.error.injEq] at h
    rw [h] at hb
    obtain ⟨h1, h2, h3⟩ := boardLoop_err env.boardFault now
      (discoveredBoards env) 0 (saveWorkspaces (priorityWs env) st) st2 m hb
    refine ⟨by rw [h1, saveWorkspaces_syncRuns], ?_⟩
    intro x hx
    exact h3 x (hasBoard_of_boards_eq (saveWorkspaces_boards _ st) x hx)
  | ok st1 =>
  simp only [hb] at h
  obtain ⟨h1, h2, h3⟩ := boardLoop_ok env.boardFault now
    (discoveredBoards env) 0 (saveWorkspaces (priorityWs env) st) st1 hb
  cases hu : env.usersFault with
  | some mu =>
    simp only [hu, Except.error.injEq, Prod.mk.injEq] at h
    obtain ⟨hmm, hst⟩ := h
    subst hst
    refine ⟨by rw [h1, saveWorkspaces_syncRuns], ?_⟩
    intro x hx
    exact h3 x (hasBoard_of_boards_eq (saveWorkspaces_boards _ st) x hx)
  | none =>
  simp only [hu] at h
  cases hc : env.completeFault with
  | some mc =>
    simp only [hc, Except.error.injEq, Prod.mk.injEq] at h
    obtain ⟨hmm, hst⟩ := h
    subst hst
    constructor
    · rw [syncPriorityBoardRelationships_syncRuns, saveUsers_syncRuns,
        h1, saveWorkspaces_syncRuns]
    · intro x hx
      refine hasBoard_of_boards_eq
        (syncPriorityBoardRelationships_boards _ _ _) x ?_
      refine hasBoard_of_boards_eq (saveUsers_boards _ _) x ?_
      exact h3 x (hasBoard_of_boards_eq (saveWorkspaces_boards _ st) x hx)
  | none =>
    simp only [hc] at h
    exact absurd h (by simp)

/-- When `saveUsers` is the step that throws, the body fails with exactly
that message and the store at the throw point holds every fetched board. -/
theorem runBody_usersFault (env : Env) (now : ℚ) (syncId : Nat) (st : Store)
    (mu : String)
    (hm : env.mondayConnected = true) (hd : env.dbConnected = true)
    (hp : (priorityWs env).isEmpty = false) (hw : env.wsFault = none)
    (hbf : env.boardFault = none) (hu : env.usersFault = some mu) :
    runBody env now syncId st
      = .error (mu, boardsPass now (discoveredBoards env)
          (saveWorkspaces (priorityWs env) st)) := by
  simp only [runBody, hm, hd, hp, hw, hbf, hu, Bool.not_true, Bool.false_eq_true,
    if_false, boardLoop_none_eq]

/-- C2: whenever a `priorityWorkspaceSync` run (started with the flag clear)
throws after creating its Sync Run, that run is terminally marked `failed`
with the exception's message, the exception is re-raised, the syncing flag
ends cleared, and board rows present before the failure are still present
(no rollback); in particular when `saveUsers` is the step that throws, every
board fetched and persisted earlier in the run remains stored. -/
theorem c2_failure_semantics (env : Env) (now : ℚ) (st : Store) :
    (∀ m, (priorityWorkspaceSync false env now st).result = .error m →
       (priorityWorkspaceSync false env now st).store.syncRuns[st.syncRuns.length]?
         = some ⟨"priority_workspace_sync", none, "failed", 0, 0, 0, 0, some m⟩ ∧
       (priorityWorkspaceSync false env now st).flagAfter = false ∧
       (∀ x, hasBoard st x = true →
         hasBoard (priorityWorkspaceSync false env now st).store x = true)) ∧
    (∀ m, env.mondayConnected = true → env.dbConnected = true →
       (priorityWs env).isEmpty = false → env.wsFault = none →
       env.boardFault = none → env.usersFault = some m →
       (priorityWorkspaceSync false env now st).result = .error m ∧
       ∀ b ∈ discoveredBoards env,
         hasBoard (priorityWorkspaceSync false env now st).store b.id = true) := by
  constructor
  · intro m hres
    simp only [priorityWorkspaceSync, Bool.false_eq_true, if_false] at hres
    cases hr : runBody env now st.syncRuns.length
        (startSync "priority_workspace_sync" none st) with
    | ok p =>
      rw [hr] at hres
      exact absurd hres (by simp)
    | error e =>
      obtain ⟨me, se⟩ := e
      rw [hr] at hres
      simp only [Except.error.injEq] at hres
      subst hres
      have hout : priorityWorkspaceSync false env now st
          = ⟨some true, false, failSync st.syncRuns.length me se, .error me⟩ := by
        simp only [priorityWorkspaceSync, Bool.false_eq_true, if_false, hr]
      rw [hout]
      obtain ⟨h1, h2⟩ := runBody_err env now st.syncRuns.length
        (startSync "priority_workspace_sync" none st) me se hr
      refine ⟨?_, rfl, ?_⟩
      · show (updateAt st.syncRuns.length _ se.syncRuns)[st.syncRuns.length]? = _
        rw [updateAt_getElem, h1]
        show ((st.syncRuns ++ [_])[st.syncRuns.length]?).map _ = _
        rw [getElem_append_singleton]
        rfl
      · intro x hx
        exact h2 x hx
  · intro m hm hd hp hw hbf hu
    have hr := runBody_usersFault env now st.syncRuns.length
      (startSync "priority_workspace_sync" none st) m hm hd hp hw hbf hu
    have hout : priorityWorkspaceSync false env now st
        = ⟨some true, false,
           failSync st.syncRuns.length m
             (boardsPass now (discoveredBoards env)
               (saveWorkspaces (priorityWs env)
                 (startSync "priority_workspace_sync" none st))),
           .error m⟩ := by
      simp only [priorityWorkspaceSync, Bool.false_eq_true, if_false, hr]
    rw [hout]
    refine ⟨rfl, ?_⟩
    intro b hb
    show hasBoard (boardsPass now (discoveredBoards env)
      (saveWorkspaces (priorityWs env)
        (startSync "priority_workspace_sync" none st))) b.id = true
    exact hasBoard_boardsPass_all now (discoveredBoards env) _ b hb

/-- C2 witness: a concrete run where `saveUsers` throws "saveUsers exploded"
mid-sync: the exception propagates and all five boards saved earlier remain. -/
theorem c2_failure_semantics_witness :
    (priorityWorkspaceSync false envUsersFault nowScenario emptyStore).result
      = .error "saveUsers exploded" ∧
    ∀ b ∈ discoveredBoards envUsersFault,
      hasBoard (priorityWorkspaceSync false envUsersFault nowScenario emptyStore).store
        b.id = true :=
  (c2_failure_semantics envUsersFault nowScenario emptyStore).2 "saveUsers exploded"
    rfl rfl (by decide) rfl rfl rfl

-- Relationship upsert key lemmas.

theorem relConflict_eq_keyConflict (x row : RelRow) :
    relConflict x row = keyConflict (relKey x) row := rfl

theorem any_conflict_map (l : List RelRow) (row : RelRow) :
    l.any (fun x => relConflict x row)
      = (l.map relKey).any (fun k => keyConflict k row) := by
  induction l with
  | nil => rfl
  | cons x xs ih =>
    simp only [List.any_cons, List.map_cons]
    rw [ih, relConflict_eq_keyConflict]

theorem updateRelFirst_map_relKey (row : RelRow) :
    ∀ l : List RelRow, (updateRelFirst row l).map relKey = l.map relKey := by
  intro l
  induction l with
  | nil => rfl
  | cons x xs ih =>
    unfold updateRelFirst
    split
    · rfl
    · show relKey x :: (updateRelFirst row xs).map relKey = relKey x :: xs.map relKey
      rw [ih]

theorem updateRelFirst_length (row : RelRow) :
    ∀ l : List RelRow, (updateRelFirst row l).length = l.length := by
  intro l
  have h := updateRelFirst_map_relKey row l
  have := congrArg List.length h
  simpa using this

theorem relConflict_self (row : RelRow) (c : String)
    (hc : row.source_column_id = some c) : relConflict row row = true := by
  simp [relConflict, hc]

theorem relKey_ne_of_conflict_false (x row : RelRow) (c : String)
    (hc : row.source_column_id = some c) (h : relConflict x row = false) :
    relKey x ≠ relKey row := by
  intro hk
  simp only [relKey, Prod.mk.injEq] at hk
  obtain ⟨e1, e2, e3, e4⟩ := hk
  rw [relConflict_eq_keyConflict] at h
  simp [keyConflict, relKey, e1, e2, e3, e4, hc] at h

theorem saveRel_conflict (r : RelInput) (st : Store)
    (h : st.relationships.any (fun x => relConflict x (relRowOf r)) = true) :
    (saveBoardRelationship r st).relationships
      = updateRelFirst (relRowOf r) st.relationships := by
  simp only [saveBoardRelationship]
  rw [if_pos h]

theorem saveRel_new (r : RelInput) (st : Store)
    (h : st.relationships.any (fun x => relConflict x (relRowOf r)) = false) :
    (saveBoardRelationship r st).relationships
      = st.relationships ++ [relRowOf r] := by
  simp only [saveBoardRelationship]
  rw [if_neg (by rw [h]; exact Bool.false_ne_true)]

theorem any_conflict_saveRel_mono (r : RelInput) (st : Store) (row : RelRow)
    (h : st.relationships.any (fun x => relConflict x row) = true) :
    (saveBoardRelationship r st).relationships.any
      (fun x => relConflict x row) = true := by
  cases hc : st.relationships.any (fun x => relConflict x (relRowOf r)) with
  | true =>
    rw [saveRel_conflict r st hc, any_conflict_map, updateRelFirst_map_relKey,
      ← any_conflict_map]
    exact h
  | false =>
    rw [saveRel_new r st hc, List.any_append, h, Bool.true_or]

theorem saveRel_establishes (r : RelInput) (st : Store) (c : String)
    (hc : (relRowOf r).source_column_id = some c) :
    (saveBoardRelationship r st).relationships.any
      (fun x => relConflict x (relRowOf r)) = true := by
  cases h : st.relationships.any (fun x => relConflict x (relRowOf r)) with
  | true =>
    rw [saveRel_conflict r st h, any_conflict_map, updateRelFirst_map_relKey,
      ← any_conflict_map]
    exact h
  | false =>
    rw [saveRel_new r st h, List.any_append]
    have : [relRowOf r].any (fun x => relConflict x (relRowOf r)) = true := by
      simp only [List.any_cons, List.any_nil, Bool.or_false]
      exact relConflict_self (relRowOf r) c hc
    rw [this, Bool.or_true]

-- The fold of relationship upserts a discovery pass amounts to.

theorem foldSave_cons (i : RelInput) (l : List RelInput) (st : Store) :
    foldSave (i :: l) st = foldSave l (saveBoardRelationship i st) := rfl

theorem foldSave_append (l1 l2 : List RelInput) (st : Store) :
    foldSave (l1 ++ l2) st = foldSave l2 (foldSave l1 st) := by
  unfold foldSave
  rw [List.foldl_append]

theorem foldl_if_filter_map (p : Connection → Bool) (g : Connection → RelInput)
    (cs : List Connection) :
    ∀ st : Store,
      cs.foldl (fun acc c => if p c then saveBoardRelationship (g c) acc else acc) st
        = foldSave ((cs.filter p).map g) st := by
  induction cs with
  | nil => intro st; rfl
  | cons c rest ih =>
    intro st
    show rest.foldl _ (if p c then saveBoardRelationship (g c) st else st) = _
    cases hc : p c with
    | true =>
      rw [if_pos rfl, ih]
      have : (c :: rest).filter p = c :: rest.filter p := by
        rw [List.filter_cons_of_pos hc]
      rw [this, List.map_cons, foldSave_cons]
    | false =>
      rw [if_neg (by simp), ih]
      have : (c :: rest).filter p = rest.filter p := by
        rw [List.filter_cons_of_neg (by simp [hc])]
      rw [this]

theorem discoverBoard_eq_foldSave (env : Env) (bs : List MondayBoard)
    (b : MondayBoard) (st : Store) :
    discoverBoard env bs b st = foldSave (keptOf env bs b) st := by
  unfold discoverBoard keptOf
  split
  · rfl
  · exact foldl_if_filter_map _ _ _ st

theorem sync_eq_foldSave (env : Env) (bs : List MondayBoard) :
    ∀ (bs2 : List MondayBoard) (st : Store),
      bs2.foldl (fun acc b => discoverBoard env bs b acc) st
        = foldSave ((bs2.map (keptOf env bs)).flatten) st := by
  intro bs2
  induction bs2 with
  | nil => intro st; rfl
  | cons b rest ih =>
    intro st
    show rest.foldl _ (discoverBoard env bs b st) = _
    rw [ih, discoverBoard_eq_foldSave, List.map_cons, List.flatten_cons,
      foldSave_append]

theorem syncPriorityBoardRelationships_eq_foldSave (env : Env)
    (bs : List MondayBoard) (st : Store) :
    syncPriorityBoardRelationships env bs st = foldSave (keptList env bs) st :=
  sync_eq_foldSave env bs bs st

-- Membership facts about the kept relationship inputs.

theorem mem_keptOf (env : Env) (bs : List MondayBoard) (b : MondayBoard)
    (i : RelInput) (h : i ∈ keptOf env bs b) :
    ∃ c ∈ lookupList b.id env.connections,
      bs.any (fun b2 => b2.id == c.targetBoard) = true ∧ i = mkRelInput b.id c := by
  unfold keptOf at h
  split at h
  · exact absurd h (List.not_mem_nil i)
  · rw [List.mem_map] at h
    obtain ⟨c, hc, hi⟩ := h
    rw [List.mem_filter] at hc
    exact ⟨c, hc.1, hc.2, hi.symm⟩

theorem mem_keptList (env : Env) (bs : List MondayBoard) (i : RelInput)
    (h : i ∈ keptList env bs) :
    ∃ b ∈ bs, i ∈ keptOf env bs b := by
  unfold keptList at h
  rw [List.mem_flatten] at h
  obtain ⟨l, hl, hi⟩ := h
  rw [List.mem_map] at hl
  obtain ⟨b, hb, rfl⟩ := hl
  exact ⟨b, hb, hi⟩

theorem mem_lookupList {c : Connection} {key : String}
    {l : List (String × List Connection)} (h : c ∈ lookupList key l) :
    ∃ p ∈ l, c ∈ p.2 := by
  unfold lookupList at h
  cases hf : l.find? (fun p => p.1 == key) with
  | none => rw [hf] at h; exact absurd h (List.not_mem_nil c)
  | some p =>
    rw [hf] at h
    exact ⟨p, List.mem_of_find?_eq_some hf, h⟩

theorem orNull_some {s : String} (h : s ≠ "") : orNull (some s) = some s := by
  simp [orNull, h]

theorem keptList_column_some (env : Env) (bs : List MondayBoard)
    (hc : ∀ p ∈ env.connections, ∀ c ∈ p.2, c.columnId ≠ "") :
    ∀ i ∈ keptList env bs, ∃ cc, (relRowOf i).source_column_id = some cc := by
  intro i hi
  obtain ⟨b, hb, hk⟩ := mem_keptList env bs i hi
  obtain ⟨c, hcm, htgt, rfl⟩ := mem_keptOf env bs b i hk
  obtain ⟨p, hp, hcp⟩ := mem_lookupList hcm
  refine ⟨c.columnId, ?_⟩
  show orNull (some c.columnId) = some c.columnId
  exact orNull_some (hc p hp c hcp)

-- Key-determined predicates survive the upsert fold.

theorem exists_same_key {l l2 : List RelRow} {x : RelRow}
    (hmap : l2.map relKey = l.map relKey) (hx : x ∈ l2) :
    ∃ y ∈ l, relKey y = relKey x := by
  have : relKey x ∈ l2.map relKey := List.mem_map_of_mem relKey hx
  rw [hmap, List.mem_map] at this
  obtain ⟨y, hy, he⟩ := this
  exact ⟨y, hy, he⟩

theorem foldSave_key_closed (P : RelRow → Prop)
    (hP : ∀ x y, relKey x = relKey y → P x → P y) :
    ∀ (L : List RelInput) (st : Store),
      (∀ x ∈ st.relationships, P x) → (∀ i ∈ L, P (relRowOf i)) →
      ∀ x ∈ (foldSave L st).relationships, P x := by
  intro L
  induction L with
  | nil => intro st h0 _ x hx; exact h0 x hx
  | cons i rest ih =>
    intro st h0 hL x hx
    rw [foldSave_cons] at hx
    refine ih (saveBoardRelationship i st) ?_ (fun j hj => hL j (List.mem_cons_of_mem i hj)) x hx
    intro y hy
    cases hc : st.relationships.any (fun z => relConflict z (relRowOf i)) with
    | true =>
      rw [saveRel_conflict i st hc] at hy
      obtain ⟨z, hz, he⟩ := exists_same_key (updateRelFirst_map_relKey (relRowOf i) _) hy
      exact hP z y he (h0 z hz)
    | false =>
      rw [saveRel_new i st hc] at hy
      rcases List.mem_append.mp hy with hz | hz
      · exact h0 y hz
      · rw [List.mem_singleton] at hz
        subst hz
        exact hL i (List.mem_cons_self i rest)

theorem foldSave_pairwise :
    ∀ (L : List RelInput) (st : Store),
      (∀ i ∈ L, ∃ c, (relRowOf i).source_column_id = some c) →
      (st.relationships.map relKey).Pairwise (· ≠ ·) →
      ((foldSave L st).relationships.map relKey).Pairwise (· ≠ ·) := by
  intro L
  induction L with
  | nil => intro st _ h0; exact h0
  | cons i rest ih =>
    intro st hL h0
    rw [foldSave_cons]
    refine ih (saveBoardRelationship i st)
      (fun j hj => hL j (List.mem_cons_of_mem i hj)) ?_
    cases hc : st.relationships.any (fun z => relConflict z (relRowOf i)) with
    | true =>
      rw [saveRel_conflict i st hc, updateRelFirst_map_relKey]
      exact h0
    | false =>
      rw [saveRel_new i st hc, List.map_append]
      rw [List.pairwise_append]
      refine ⟨h0, List.pairwise_singleton _ _, ?_⟩
      intro a ha b hb
      rw [List.mem_map] at ha
      obtain ⟨z, hz, rfl⟩ := ha
      simp only [List.map_cons, List.map_nil, List.mem_singleton] at hb
      subst hb
      obtain ⟨cc, hcc⟩ := hL i (List.mem_cons_self i rest)
      have hfz : relConflict z (relRowOf i) = false := by
        have := List.any_eq_false.mp (by exact hc) z hz
        cases hzz : relConflict z (relRowOf i) with
        | false => rfl
        | true => exact absurd hzz this
      exact relKey_ne_of_conflict_false z (relRowOf i) cc hcc hfz

/-- C3: during relationship discovery, every persisted edge has both its
source and target board in the current sync's board set (edges to unknown
boards are never persisted), and — starting from a store with no edges —
the stored edges are pairwise distinct on the natural key
(source, target, type, source column), so re-discovering the same connection
upserts rather than duplicates. -/
theorem c3_edge_filtering (env : Env) (bs : List MondayBoard) (st : Store)
    (h0 : st.relationships = [])
    (hc : ∀ p ∈ env.connections, ∀ c ∈ p.2, c.columnId ≠ "") :
    (∀ x ∈ (syncPriorityBoardRelationships env bs st).relationships,
       bs.any (fun b => b.id == x.source_board_id) = true ∧
       bs.any (fun b => b.id == x.target_board_id) = true) ∧
    ((syncPriorityBoardRelationships env bs st).relationships.map relKey).Pairwise
      (· ≠ ·) := by
  rw [syncPriorityBoardRelationships_eq_foldSave]
  constructor
  · refine foldSave_key_closed
      (fun x => bs.any (fun b => b.id == x.source_board_id) = true ∧
                bs.any (fun b => b.id == x.target_board_id) = true)
      ?_ (keptList env bs) st ?_ ?_
    · intro x y he hx
      simp only [relKey, Prod.mk.injEq] at he
      obtain ⟨e1, e2, _, _⟩ := he
      rw [← e1, ← e2]
      exact hx
    · intro x hx
      rw [h0] at hx
      exact absurd hx (List.not_mem_nil x)
    · intro i hi
      obtain ⟨b, hb, hk⟩ := mem_keptList env bs i hi
      obtain ⟨c, hcm, htgt, rfl⟩ := mem_keptOf env bs b i hk
      constructor
      · show bs.any (fun b2 => b2.id == b.id) = true
        rw [List.any_eq_true]
        exact ⟨b, hb, by simp⟩
      · exact htgt
  · refine foldSave_pairwise (keptList env bs) st
      (keptList_column_some env bs hc) ?_
    rw [h0]
    exact List.Pairwise.nil

/-- C3 witness: with the scenario's boards, an edge discovered twice and an
edge to a board outside the set, the persisted edges all stay inside the set
and are key-distinct (the duplicate was upserted, the external one dropped). -/
theorem c3_edge_filtering_witness :
    (∀ x ∈ (syncPriorityBoardRelationships envDupEdges
        (discoveredBoards envDupEdges) emptyStore).relationships,
       (discoveredBoards envDupEdges).any (fun b => b.id == x.source_board_id) = true ∧
       (discoveredBoards envDupEdges).any (fun b => b.id == x.target_board_id) = true) ∧
    ((syncPriorityBoardRelationships envDupEdges (discoveredBoards envDupEdges)
        emptyStore).relationships.map relKey).Pairwise (· ≠ ·) :=
  c3_edge_filtering envDupEdges (discoveredBoards envDupEdges) emptyStore rfl
    (by decide)

-- Further component-preservation facts.

theorem startSync_workspaces (t : String) (w : Option String) (st : Store) :
    (startSync t w st).workspaces = st.workspaces := rfl

theorem startSync_boards (t : String) (w : Option String) (st : Store) :
    (startSync t w st).boards = st.boards := rfl

theorem startSync_columns (t : String) (w : Option String) (st : Store) :
    (startSync t w st).columns = st.columns := rfl

theorem startSync_relationships (t : String) (w : Option String) (st : Store) :
    (startSync t w st).relationships = st.relationships := rfl

theorem completeSync_workspaces (i : Nat) (s : SyncStats) (st : Store) :
    (completeSync i s st).workspaces = st.workspaces := rfl

theorem completeSync_boards (i : Nat) (s : SyncStats) (st : Store) :
    (completeSync i s st).boards = st.boards := rfl

theorem completeSync_columns (i : Nat) (s : SyncStats) (st : Store) :
    (completeSync i s st).columns = st.columns := rfl

theorem completeSync_relationships (i : Nat) (s : SyncStats) (st : Store) :
    (completeSync i s st).relationships = st.relationships := rfl

theorem foldSave_workspaces :
    ∀ (L : List RelInput) (st : Store), (foldSave L st).workspaces = st.workspaces := by
  intro L
  induction L with
  | nil => intro st; rfl
  | cons i rest ih =>
    intro st
    rw [foldSave_cons, ih, saveBoardRelationship_workspaces]

theorem foldSave_columns :
    ∀ (L : List RelInput) (st : Store), (foldSave L st).columns = st.columns := by
  intro L
  induction L with
  | nil => intro st; rfl
  | cons i rest ih =>
    intro st
    rw [foldSave_cons, ih, saveBoardRelationship_columns]

theorem foldSave_boards :
    ∀ (L : List RelInput) (st : Store), (foldSave L st).boards = st.boards := by
  intro L
  induction L with
  | nil => intro st; rfl
  | cons i rest ih =>
    intro st
    rw [foldSave_cons, ih, saveBoardRelationship_boards]

-- Upsert length preservation.

theorem wsUpsert_len_of_has (w : MondayWorkspace) (l : List WorkspaceRow)
    (h : l.any (fun r => r.id == w.id) = true) :
    (wsUpsert w l).length = l.length := by
  unfold wsUpsert
  rw [if_pos h, List.length_map]

theorem wsUpsert_has_self (w : MondayWorkspace) (l : List WorkspaceRow) :
    (wsUpsert w l).any (fun r => r.id == w.id) = true := by
  unfold wsUpsert
  split
  next h =>
    rw [List.any_eq_true] at h ⊢
    obtain ⟨r, hr, hid⟩ := h
    exact ⟨⟨w.id, w.name⟩, List.mem_map.mpr ⟨r, hr, by rw [if_pos hid]⟩, by simp⟩
  next h =>
    rw [List.any_eq_true]
    exact ⟨⟨w.id, w.name⟩, by simp, by simp⟩

theorem wsUpsert_has_mono (w : MondayWorkspace) (l : List WorkspaceRow)
    (x : String) (h : l.any (fun r => r.id == x) = true) :
    (wsUpsert w l).any (fun r => r.id == x) = true := by
  unfold wsUpsert
  split
  next hc =>
    rw [List.any_eq_true] at h ⊢
    obtain ⟨r, hr, hid⟩ := h
    by_cases hb : (r.id == w.id) = true
    · refine ⟨⟨w.id, w.name⟩, List.mem_map.mpr ⟨r, hr, by rw [if_pos hb]⟩, ?_⟩
      rw [beq_iff_eq] at hb hid ⊢
      rw [← hb]
      exact hid
    · exact ⟨r, List.mem_map.mpr ⟨r, hr, by rw [if_neg hb]⟩, hid⟩
  next hc =>
    rw [List.any_append, h, Bool.true_or]

theorem wsFold_has_mono (ws : List MondayWorkspace) :
    ∀ (l : List WorkspaceRow) (x : String),
      l.any (fun r => r.id == x) = true →
      (ws.foldl (fun l w => wsUpsert w l) l).any (fun r => r.id == x) = true := by
  induction ws with
  | nil => intro l x h; exact h
  | cons w rest ih =>
    intro l x h
    exact ih (wsUpsert w l) x (wsUpsert_has_mono w l x h)

theorem wsFold_has_all (ws : List MondayWorkspace) :
    ∀ (l : List WorkspaceRow), ∀ w ∈ ws,
      (ws.foldl (fun l w => wsUpsert w l) l).any (fun r => r.id == w.id) = true := by
  induction ws with
  | nil => intro l w hw; exact absurd hw (List.not_mem_nil w)
  | cons v rest ih =>
    intro l w hw
    rcases List.mem_cons.mp hw with h | h
    · subst h
      exact wsFold_has_mono rest (wsUpsert w l) w.id (wsUpsert_has_self w l)
    · exact ih (wsUpsert v l) w h

theorem wsFold_len_of_all (ws : List MondayWorkspace) :
    ∀ l : List WorkspaceRow,
      (∀ w ∈ ws, l.any (fun r => r.id == w.id) = true) →
      (ws.foldl (fun l w => wsUpsert w l) l).length = l.length := by
  induction ws with
  | nil => intro l _; rfl
  | cons w rest ih =>
    intro l h
    have h1 := h w (List.mem_cons_self w rest)
    show (rest.foldl _ (wsUpsert w l)).length = l.length
    rw [ih (wsUpsert w l)
      (fun v hv => wsUpsert_has_mono w l v.id (h v (List.mem_cons_of_mem w hv)))]
    exact wsUpsert_len_of_has w l h1

theorem saveWorkspaces_workspaces_eq (ws : List MondayWorkspace) (st : Store) :
    (saveWorkspaces ws st).workspaces
      = ws.foldl (fun l w => wsUpsert w l) st.workspaces := by
  unfold saveWorkspaces
  split
  next h =>
    rw [List.isEmpty_iff] at h
    subst h
    rfl
  next h => rfl

theorem boardUpsert_len_of_has (now : ℚ) (b : MondayBoard) (l : List BoardRow)
    (h : l.any (fun r => r.id == b.id) = true) :
    (boardUpsert now b l).length = l.length := by
  unfold boardUpsert
  rw [if_pos h, List.length_map]

theorem boardsPass_len_of_all (now : ℚ) (bs : List MondayBoard) :
    ∀ st : Store,
      (∀ b ∈ bs, hasBoard st b.id = true) →
      (boardsPass now bs st).boards.length = st.boards.length := by
  induction bs with
  | nil => intro st _; rfl
  | cons b rest ih =>
    intro st h
    show (boardsPass now rest (stepBoard now b st)).boards.length = _
    rw [ih (stepBoard now b st)
      (fun v hv => hasBoard_stepBoard_mono now b st v.id (h v (List.mem_cons_of_mem b hv)))]
    rw [stepBoard_boards]
    exact boardUpsert_len_of_has now b st.boards (h b (List.mem_cons_self b rest))

-- Closed form for the columns table after a board pass.

theorem colRowsOf_board_id_mem (bs : List MondayBoard) (r : ColumnRow)
    (h : r ∈ colRowsOf bs) : (nonemptyIds bs).contains r.board_id = true := by
  unfold colRowsOf at h
  rw [List.mem_flatten] at h
  obtain ⟨l, hl, hr⟩ := h
  rw [List.mem_map] at hl
  obtain ⟨b, hb, rfl⟩ := hl
  rw [List.mem_map] at hr
  obtain ⟨c, _, rfl⟩ := hr
  show (nonemptyIds bs).elem (colRowOf b.id c).board_id = true
  rw [List.elem_iff]
  show b.id ∈ nonemptyIds bs
  unfold nonemptyIds
  exact List.mem_map_of_mem _ hb

theorem nonemptyIds_sub (bs : List MondayBoard) (x : String)
    (h : x ∈ nonemptyIds bs) : x ∈ bs.map (fun b => b.id) := by
  unfold nonemptyIds at h
  rw [List.mem_map] at h
  obtain ⟨b, hb, rfl⟩ := h
  exact List.mem_map_of_mem _ (List.mem_of_mem_filter hb)

theorem boardsPass_columns_closed (now : ℚ) (bs : List MondayBoard)
    (hnd : (bs.map (fun b => b.id)).Nodup) :
    ∀ st : Store,
      (boardsPass now bs st).columns
        = st.columns.filter (fun r => !((nonemptyIds bs).contains r.board_id))
            ++ colRowsOf bs := by
  induction bs with
  | nil =>
    intro st
    show st.columns
      = st.columns.filter (fun r => !((nonemptyIds []).contains r.board_id))
          ++ colRowsOf []
    have h1 : st.columns.filter (fun r => !((nonemptyIds []).contains r.board_id))
        = st.columns := List.filter_eq_self.mpr (fun a _ => rfl)
    rw [h1]
    show st.columns = st.columns ++ ([] : List ColumnRow)
    rw [List.append_nil]
  | cons b rest ih =>
    have hnd2 : (rest.map (fun b => b.id)).Nodup := by
      rw [List.map_cons, List.nodup_cons] at hnd
      exact hnd.2
    have hbn : b.id ∉ rest.map (fun b => b.id) := by
      rw [List.map_cons, List.nodup_cons] at hnd
      exact hnd.1
    intro st
    show (boardsPass now rest (stepBoard now b st)).columns = _
    rw [ih hnd2]
    cases hemp : b.columns.isEmpty with
    | true =>
      have hstep : (stepBoard now b st).columns = st.columns := by
        show (saveColumns b.id b.columns (saveBoards now [b] st)).columns = _
        unfold saveColumns
        rw [if_pos hemp, saveBoards_columns]
      have hN : nonemptyIds (b :: rest) = nonemptyIds rest := by
        unfold nonemptyIds
        rw [List.filter_cons_of_neg (by rw [hemp]; exact Bool.false_ne_true)]
      have hK : colRowsOf (b :: rest) = colRowsOf rest := by
        unfold colRowsOf
        rw [List.filter_cons_of_neg (by rw [hemp]; exact Bool.false_ne_true)]
      rw [hstep, hN, hK]
    | false =>
      have hstep : (stepBoard now b st).columns
          = st.columns.filter (fun r => !(r.board_id == b.id))
              ++ b.columns.map (colRowOf b.id) := by
        show (saveColumns b.id b.columns (saveBoards now [b] st)).columns = _
        unfold saveColumns
        rw [if_neg (by rw [hemp]; exact Bool.false_ne_true), saveBoards_columns]
      have hN : nonemptyIds (b :: rest) = b.id :: nonemptyIds rest := by
        unfold nonemptyIds
        rw [List.filter_cons_of_pos (by rw [hemp]; rfl), List.map_cons]
      have hK : colRowsOf (b :: rest)
          = b.columns.map (colRowOf b.id) ++ colRowsOf rest := by
        unfold colRowsOf
        rw [List.filter_cons_of_pos (by rw [hemp]; rfl), List.map_cons,
          List.flatten_cons]
      rw [hstep, hN, hK, List.filter_append]
      have hmap : (b.columns.map (colRowOf b.id)).filter
          (fun r => !((nonemptyIds rest).contains r.board_id))
            = b.columns.map (colRowOf b.id) := by
        rw [List.filter_eq_self]
        intro a ha
        rw [List.mem_map] at ha
        obtain ⟨c, _, rfl⟩ := ha
        have hcf : (nonemptyIds rest).contains (colRowOf b.id c).board_id = false := by
          cases he : (nonemptyIds rest).contains (colRowOf b.id c).board_id with
          | false => rfl
          | true =>
            have hmem := List.elem_iff.mp he
            exact absurd (nonemptyIds_sub rest _ hmem) hbn
        rw [hcf]
        rfl
      rw [hmap]
      have hff : (st.columns.filter (fun r => !(r.board_id == b.id))).filter
          (fun r => !((nonemptyIds rest).contains r.board_id))
            = st.columns.filter
                (fun r => !((b.id :: nonemptyIds rest).contains r.board_id)) := by
        rw [List.filter_filter]
        congr 1
        funext a
        show (!((nonemptyIds rest).contains a.board_id)
            && !(a.board_id == b.id))
          = !((b.id :: nonemptyIds rest).contains a.board_id)
        have hcons : (b.id :: nonemptyIds rest).contains a.board_id
            = ((a.board_id == b.id) || (nonemptyIds rest).contains a.board_id) := by
          show (b.id :: nonemptyIds rest).elem a.board_id = _
          rw [List.elem_cons]
          rfl
        rw [hcons, Bool.not_or, Bool.and_comm]
      rw [hff, List.append_assoc]

-- Length and key preservation for relationship folds.

theorem foldSave_any_mono :
    ∀ (L : List RelInput) (st : Store) (row : RelRow),
      st.relationships.any (fun x => relConflict x row) = true →
      (foldSave L st).relationships.any (fun x => relConflict x row) = true := by
  intro L
  induction L with
  | nil => intro st row h; exact h
  | cons i rest ih =>
    intro st row h
    rw [foldSave_cons]
    exact ih (saveBoardRelationship i st) row (any_conflict_saveRel_mono i st row h)

theorem foldSave_establish_all :
    ∀ (L : List RelInput) (st : Store),
      (∀ i ∈ L, ∃ c, (relRowOf i).source_column_id = some c) →
      ∀ i ∈ L, (foldSave L st).relationships.any
        (fun x => relConflict x (relRowOf i)) = true := by
  intro L
  induction L with
  | nil => intro st _ i hi; exact absurd hi (List.not_mem_nil i)
  | cons j rest ih =>
    intro st hs i hi
    rw [foldSave_cons]
    rcases List.mem_cons.mp hi with h | h
    · subst h
      obtain ⟨c, hc⟩ := hs i (List.mem_cons_self i rest)
      exact foldSave_any_mono rest (saveBoardRelationship i st) (relRowOf i)
        (saveRel_establishes i st c hc)
    · exact ih (saveBoardRelationship j st)
        (fun k hk => hs k (List.mem_cons_of_mem j hk)) i h

theorem foldSave_count :
    ∀ (L : List RelInput) (st : Store),
      (∀ i ∈ L, st.relationships.any (fun x => relConflict x (relRowOf i)) = true) →
      (foldSave L st).relationships.length = st.relationships.length := by
  intro L
  induction L with
  | nil => intro st _; rfl
  | cons i rest ih =>
    intro st h
    rw [foldSave_cons]
    have hi := h i (List.mem_cons_self i rest)
    have hrels := saveRel_conflict i st hi
    have hmap : (saveBoardRelationship i st).relationships.map relKey
        = st.relationships.map relKey := by
      rw [hrels, updateRelFirst_map_relKey]
    rw [ih (saveBoardRelationship i st) ?_]
    · rw [hrels, updateRelFirst_length]
    · intro j hj
      rw [any_conflict_map, hmap, ← any_conflict_map]
      exact h j (List.mem_cons_of_mem i hj)

-- A fault-free run and its store, component by component.

theorem run_no_faults (env : Env) (now : ℚ) (st : Store)
    (hm : env.mondayConnected = true) (hd : env.dbConnected = true)
    (hp : (priorityWs env).isEmpty = false) (hw : env.wsFault = none)
    (hbf : env.boardFault = none) (hu : env.usersFault = none)
    (hcf : env.completeFault = none) :
    priorityWorkspaceSync false env now st
      = ⟨some true, false, noFaultStore env now st,
         .ok (getOrganizationalStructure now (noFaultStore env now st))⟩ := by
  simp only [priorityWorkspaceSync, runBody, noFaultStore, hm, hd, hp, hw, hbf, hu,
    hcf, Bool.not_true, Bool.false_eq_true, if_false, boardLoop_none_eq]

theorem noFaultStore_workspaces (env : Env) (now : ℚ) (st : Store) :
    (noFaultStore env now st).workspaces
      = (priorityWs env).foldl (fun l w => wsUpsert w l) st.workspaces := by
  simp only [noFaultStore]
  rw [completeSync_workspaces, syncPriorityBoardRelationships_eq_foldSave,
    foldSave_workspaces, saveUsers_workspaces, boardsPass_workspaces,
    saveWorkspaces_workspaces_eq, startSync_workspaces]

theorem noFaultStore_boards (env : Env) (now : ℚ) (st : Store) :
    (noFaultStore env now st).boards
      = (boardsPass now (discoveredBoards env)
          (saveWorkspaces (priorityWs env)
            (startSync "priority_workspace_sync" none st))).boards := by
  simp only [noFaultStore]
  rw [completeSync_boards, syncPriorityBoardRelationships_boards, saveUsers_boards]

theorem noFaultStore_columns (env : Env) (now : ℚ) (st : Store) :
    (noFaultStore env now st).columns
      = (boardsPass now (discoveredBoards env)
          (saveWorkspaces (priorityWs env)
            (startSync "priority_workspace_sync" none st))).columns := by
  simp only [noFaultStore]
  rw [completeSync_columns, syncPriorityBoardRelationships_eq_foldSave,
    foldSave_columns, saveUsers_columns]

theorem noFaultStore_relationships (env : Env) (now : ℚ) (st : Store) :
    (noFaultStore env now st).relationships
      = (foldSave (keptList env (discoveredBoards env))
          (saveUsers env.users (boardsPass now (discoveredBoards env)
            (saveWorkspaces (priorityWs env)
              (startSync "priority_workspace_sync" none st))))).relationships := by
  simp only [noFaultStore]
  rw [completeSync_relationships, syncPriorityBoardRelationships_eq_foldSave]

/-- C6: with a fixed remote dataset (distinct board ids, non-empty column
ids) a second `fullSync` run immediately after the first leaves the stored
workspace, board and relationship counts unchanged and the columns table
literally identical — every persistence path is an upsert or a keyed
replacement, never a duplicating insert. -/
theorem c6_full_sync_idempotent (env : Env) (now1 now2 : ℚ) (st : Store)
    (hm : env.mondayConnected = true) (hd : env.dbConnected = true)
    (hp : (priorityWs env).isEmpty = false) (hw : env.wsFault = none)
    (hbf : env.boardFault = none) (hu : env.usersFault = none)
    (hcf : env.completeFault = none)
    (hnodup : ((discoveredBoards env).map (fun b => b.id)).Nodup)
    (hcol : ∀ p ∈ env.connections, ∀ c ∈ p.2, c.columnId ≠ "") :
    ((priorityWorkspaceSync false env now2
        (priorityWorkspaceSync false env now1 st).store).store).workspaces.length
      = ((priorityWorkspaceSync false env now1 st).store).workspaces.length ∧
    ((priorityWorkspaceSync false env now2
        (priorityWorkspaceSync false env now1 st).store).store).boards.length
      = ((priorityWorkspaceSync false env now1 st).store).boards.length ∧
    ((priorityWorkspaceSync false env now2
        (priorityWorkspaceSync false env now1 st).store).store).columns
      = ((priorityWorkspaceSync false env now1 st).store).columns ∧
    ((priorityWorkspaceSync false env now2
        (priorityWorkspaceSync false env now1 st).store).store).relationships.length
      = ((priorityWorkspaceSync false env now1 st).store).relationships.length := by
  have e1 : (priorityWorkspaceSync false env now1 st).store
      = noFaultStore env now1 st := by
    rw [run_no_faults env now1 st hm hd hp hw hbf hu hcf]
  have e2 : (priorityWorkspaceSync false env now2 (noFaultStore env now1 st)).store
      = noFaultStore env now2 (noFaultStore env now1 st) := by
    rw [run_no_faults env now2 (noFaultStore env now1 st) hm hd hp hw hbf hu hcf]
  rw [e1, e2]
  refine ⟨?_, ?_, ?_, ?_⟩
  · -- workspaces
    rw [noFaultStore_workspaces env now2, noFaultStore_workspaces env now1]
    exact wsFold_len_of_all (priorityWs env) _
      (fun w hw2 => wsFold_has_all (priorityWs env) st.workspaces w hw2)
  · -- boards
    rw [noFaultStore_boards env now2, noFaultStore_boards env now1]
    have hall : ∀ b ∈ discoveredBoards env,
        hasBoard (saveWorkspaces (priorityWs env)
          (startSync "priority_workspace_sync" none (noFaultStore env now1 st)))
            b.id = true := by
      intro b hb
      have hb1 : hasBoard (boardsPass now1 (discoveredBoards env)
          (saveWorkspaces (priorityWs env)
            (startSync "priority_workspace_sync" none st))) b.id = true :=
        hasBoard_boardsPass_all now1 (discoveredBoards env) _ b hb
      refine hasBoard_of_boards_eq ?_ b.id hb1
      rw [saveWorkspaces_boards, startSync_boards, noFaultStore_boards]
    rw [boardsPass_len_of_all now2 (discoveredBoards env) _ hall]
    show (saveWorkspaces (priorityWs env)
      (startSync "priority_workspace_sync" none (noFaultStore env now1 st))).boards.length = _
    rw [saveWorkspaces_boards, startSync_boards, noFaultStore_boards]
  · -- columns
    rw [noFaultStore_columns env now2, noFaultStore_columns env now1,
      boardsPass_columns_closed now2 (discoveredBoards env) hnodup,
      boardsPass_columns_closed now1 (discoveredBoards env) hnodup]
    have hc1 : (saveWorkspaces (priorityWs env)
        (startSync "priority_workspace_sync" none (noFaultStore env now1 st))).columns
          = (noFaultStore env now1 st).columns := by
      rw [saveWorkspaces_columns, startSync_columns]
    have hc2 : (saveWorkspaces (priorityWs env)
        (startSync "priority_workspace_sync" none st)).columns = st.columns := by
      rw [saveWorkspaces_columns, startSync_columns]
    rw [hc1, hc2, noFaultStore_columns env now1,
      boardsPass_columns_closed now1 (discoveredBoards env) hnodup, hc2]
    rw [List.filter_append]
    have hidem : ((st.columns.filter
        (fun r => !((nonemptyIds (discoveredBoards env)).contains r.board_id))).filter
          (fun r => !((nonemptyIds (discoveredBoards env)).contains r.board_id)))
        = st.columns.filter
            (fun r => !((nonemptyIds (discoveredBoards env)).contains r.board_id)) :=
      List.filter_eq_self.mpr (fun a ha => (List.mem_filter.mp ha).2)
    have hkf : (colRowsOf (discoveredBoards env)).filter
        (fun r => !((nonemptyIds (discoveredBoards env)).contains r.board_id)) = [] := by
      rw [List.filter_eq_nil_iff]
      intro a ha
      rw [colRowsOf_board_id_mem (discoveredBoards env) a ha]
      simp
    rw [hidem, hkf, List.append_nil]
  · -- relationships
    rw [noFaultStore_relationships env now2, noFaultStore_relationships env now1]
    have hsome := keptList_column_some env (discoveredBoards env) hcol
    have hrel2 : (saveUsers env.users (boardsPass now2 (discoveredBoards env)
        (saveWorkspaces (priorityWs env)
          (startSync "priority_workspace_sync" none (noFaultStore env now1 st))))).relationships
        = (noFaultStore env now1 st).relationships := by
      rw [saveUsers_relationships, boardsPass_relationships,
        saveWorkspaces_relationships, startSync_relationships]
    have hest : ∀ i ∈ keptList env (discoveredBoards env),
        (saveUsers env.users (boardsPass now2 (discoveredBoards env)
          (saveWorkspaces (priorityWs env)
            (startSync "priority_workspace_sync" none
              (noFaultStore env now1 st))))).relationships.any
          (fun x => relConflict x (relRowOf i)) = true := by
      intro i hi
      rw [hrel2, noFaultStore_relationships env now1]
      exact foldSave_establish_all (keptList env (discoveredBoards env)) _ hsome i hi
    rw [foldSave_count (keptList env (discoveredBoards env)) _ hest, hrel2,
      noFaultStore_relationships env now1]

/-- C6 witness: running the scenario full sync twice leaves all four stored
tables' sizes unchanged (and the columns table identical). -/
theorem c6_full_sync_idempotent_witness :
    ((priorityWorkspaceSync false envScenario 7300000
        (priorityWorkspaceSync false envScenario nowScenario emptyStore).store).store).workspaces.length
      = ((priorityWorkspaceSync false envScenario nowScenario emptyStore).store).workspaces.length ∧
    ((priorityWorkspaceSync false envScenario 7300000
        (priorityWorkspaceSync false envScenario nowScenario emptyStore).store).store).boards.length
      = ((priorityWorkspaceSync false envScenario nowScenario emptyStore).store).boards.length ∧
    ((priorityWorkspaceSync false envScenario 7300000
        (priorityWorkspaceSync false envScenario nowScenario emptyStore).store).store).columns
      = ((priorityWorkspaceSync false envScenario nowScenario emptyStore).store).columns ∧
    ((priorityWorkspaceSync false envScenario 7300000
        (priorityWorkspaceSync false envScenario nowScenario emptyStore).store).store).relationships.length
      = ((priorityWorkspaceSync false envScenario nowScenario emptyStore).store).relationships.length :=
  c6_full_sync_idempotent envScenario nowScenario 7300000 emptyStore rfl rfl
    (by decide) rfl rfl rfl rfl (by decide) (by decide)

/-- C1: contrary to the claim, the `isSyncing` flag is NOT true at every point
during every sync entry point: `syncSpecificPriorityWorkspace` checks the flag
but never sets it, so its whole body runs with the flag still false, and a
`priorityWorkspaceSync` invoked at any such point sees a clear flag and
proceeds instead of raising 'Sync already in progress'. -/
theorem c1_scoped_sync_runs_with_flag_clear :
    (syncSpecificPriorityWorkspace "CRM" false envScenario nowScenario emptyStore).flagDuring
      = some false ∧
    isOkE (syncSpecificPriorityWorkspace "CRM" false envScenario nowScenario
      emptyStore).result = true ∧
    isOkE (priorityWorkspaceSync
      ((syncSpecificPriorityWorkspace "CRM" false envScenario nowScenario
        emptyStore).flagDuring.getD true)
      envScenario nowScenario emptyStore).result = true := by
  refine ⟨rfl, rfl, ?_⟩
  decide

/-- C7: the workspace health score is not confined to 0..100: for a workspace
whose single board is healthy, active, and at the 10-items-per-board baseline,
`analyzeWorkspaceHealth` multiplies the already-0..100 weighted sum by a
further factor 100 and returns 10000 (its own comment says "(0-100)"). -/
theorem c7_workspace_score_exceeds_100 :
    (analyzeWorkspaceHealth 0 ⟨"w1", "CRM"⟩
        [⟨"A", some "w1", "Board A", "active", 10, some 0, []⟩]).overallScore = 10000 ∧
    ¬ ((analyzeWorkspaceHealth 0 ⟨"w1", "CRM"⟩
        [⟨"A", some "w1", "Board A", "active", 10, some 0, []⟩]).overallScore ≤ 100) := by
  have h : (analyzeWorkspaceHealth 0 ⟨"w1", "CRM"⟩
      [⟨"A", some "w1", "Board A", "active", 10, some 0, []⟩]).overallScore = 10000 := by
    norm_num [analyzeWorkspaceHealth, analyzeBoardHealth, minBoardAgeForAnalysis,
      underutilizedItemsThreshold, inactiveDaysThreshold, jsRound, List.filter, List.foldl]
  refine ⟨h, ?_⟩
  rw [h]
  norm_num

/-- C8 counterexample: with an empty fetched column list, `saveColumns`
returns before deleting, so the board's previously stored column rows remain
— the stored set is not replaced by the (empty) fetched set. -/
theorem c8_empty_columns_left_in_place :
    saveColumns "b1" [] stWithCol = stWithCol ∧ stWithCol.columns ≠ [] := by
  constructor
  · rfl
  · decide

/-- C8 (amended): when the fetched column list is nonempty, the board's stored
columns are fully replaced by exactly the fetched ones and other boards' rows
are untouched; when the fetched list is empty, `saveColumns` leaves the store
unchanged (no delete happens). -/
theorem c8_column_replacement :
    ∀ (boardId : String) (cols : List MondayColumn) (st : Store),
      (cols ≠ [] →
        (saveColumns boardId cols st).columns.filter (fun r => r.board_id == boardId)
          = cols.map (colRowOf boardId) ∧
        (saveColumns boardId cols st).columns.filter (fun r => !(r.board_id == boardId))
          = st.columns.filter (fun r => !(r.board_id == boardId))) ∧
      (cols = [] → saveColumns boardId cols st = st) := by
  intro boardId cols st
  constructor
  · intro hne
    have hcols : cols.isEmpty = false := by
      cases cols with
      | nil => exact absurd rfl hne
      | cons a l => rfl
    constructor
    · simp only [saveColumns, hcols, Bool.false_eq_true, if_false, List.filter_append]
      rw [List.filter_eq_nil_iff.mpr, List.nil_append]
      · rw [List.filter_map]
        have : ((fun r => r.board_id == boardId) ∘ colRowOf boardId)
            = fun _ => true := by
          funext c
          simp [colRowOf, Function.comp]
        rw [this, List.filter_true]
      · intro a ha
        have := List.of_mem_filter ha
        simp only [Bool.not_eq_true'] at this
        simp [this]
    · simp only [saveColumns, hcols, Bool.false_eq_true, if_false, List.filter_append]
      rw [List.filter_filter]
      have h2 : (List.filter (fun a => !(a.board_id == boardId))
          (List.map (colRowOf boardId) cols)) = [] := by
        rw [List.filter_map]
        have : ((fun r : ColumnRow => !(r.board_id == boardId)) ∘ colRowOf boardId)
            = fun _ => false := by
          funext c
          simp [colRowOf, Function.comp]
        rw [this, List.filter_false, List.map_nil]
      rw [h2, List.append_nil]
      congr 1
      funext a
      simp
  · intro h
    subst h
    rfl

/-- C8 witness: the amended replacement behaviour at a concrete store. -/
theorem c8_column_replacement_witness :
    (saveColumns "b1" [⟨"c2", "T2", "text"⟩] stWithCol).columns.filter
        (fun r => r.board_id == "b1") = [⟨"c2", "b1", "T2", "text"⟩] ∧
    (saveColumns "b1" [⟨"c2", "T2", "text"⟩] stWithCol).columns.filter
        (fun r => !(r.board_id == "b1"))
      = stWithCol.columns.filter (fun r => !(r.board_id == "b1")) :=
  (c8_column_replacement "b1" [⟨"c2", "T2", "text"⟩] stWithCol).1 (by decide)

/-- C9 counterexample: in the example scenario the completed Sync Run's
created count is the number of boards (5), not workspaces plus boards (7). -/
theorem c9_created_count_is_boards_only :
    (scenarioRun.store.syncRuns.get? 0).map (fun r => r.records_created) = some 5 ∧
    ¬ ((scenarioRun.store.syncRuns.get? 0).map (fun r => r.records_created) = some 7) := by
  constructor
  · decide
  · decide

/-- C9 (amended): from the empty store, the scenario full sync ends with 2
workspace rows, 5 board rows, 1 relationship row, a Sync Run completed with
created = 5 (the board count; processed counts workspaces, boards and users),
and a healthy cache status. -/
theorem c9_example_scenario :
    scenarioRun.store.workspaces.length = 2 ∧
    scenarioRun.store.boards.length = 5 ∧
    scenarioRun.store.relationships.length = 1 ∧
    scenarioRun.store.syncRuns
      = [⟨"priority_workspace_sync", none, "completed", 8, 5, 0, 0, none⟩] ∧
    isOkE scenarioRun.result = true ∧
    (statusOf nowScenario scenarioRun.store).isHealthy = true := by
  refine ⟨?_, ?_, ?_, ?_, ?_, ?_⟩ <;> decide

/-- C5 counterexample: on a store where no sync has ever occurred (empty sync
run history, no boards), `getCacheStatus` reports a cacheAge of 0 hours — the
`lastScanned` fallback is the current instant — not Infinity as claimed. -/
theorem c5_cache_age_not_infinite :
    emptyStore.syncRuns = [] ∧
    (getCacheStatusOf 3600000 (.ok (getOrganizationalStructure 3600000 emptyStore))).cacheAge
      = .num 0 ∧
    (getCacheStatusOf 3600000 (.ok (getOrganizationalStructure 3600000 emptyStore))).cacheAge
      ≠ .inf := by
  have h : (getCacheStatusOf 3600000
      (.ok (getOrganizationalStructure 3600000 emptyStore))).cacheAge = .num 0 := by
    norm_num [getCacheStatusOf, getOrganizationalStructure, lastSyncTime, emptyStore]
  refine ⟨rfl, h, ?_⟩
  rw [h]
  intro hc
  exact JsNum.noConfusion hc

/-- C5 (amended): `isHealthy` is true iff at least one workspace and one board
row exist; `cacheAge` is the hours since the most recent `last_synced` among
boards joined to a stored workspace, defaulting to the current instant (hence
0, never infinite) when there is no such board; `needsRefresh` is true iff
`cacheAge` exceeds the configured TTL; and the value is independent of the
Sync Run history — the timestamp is not taken from Sync Runs. -/
theorem c5_freshness_computation (now : ℚ) (st : Store) (rs : List SyncRun) :
    (statusOf now st).isHealthy
      = (decide (0 < st.workspaces.length) && decide (0 < st.boards.length)) ∧
    (statusOf now st).cacheAge
      = .num ((now - ((lastSyncTime st).getD now)) / 3600000) ∧
    (statusOf now st).needsRefresh
      = JsNum.gtb (statusOf now st).cacheAge defaultTtlHours ∧
    statusOf now { st with syncRuns := rs } = statusOf now st ∧
    (st.boards = [] → (statusOf now st).cacheAge = .num 0) := by
  refine ⟨rfl, rfl, rfl, rfl, ?_⟩
  intro h
  simp [statusOf, getCacheStatusOf, getOrganizationalStructure, lastSyncTime, h]

/-- C5 witness: the amended freshness facts at a concrete store with no
boards: the cache age degrades to 0 rather than Infinity. -/
theorem c5_freshness_computation_witness :
    (statusOf 3600000 emptyStore).cacheAge = .num 0 :=
  (c5_freshness_computation 3600000 emptyStore []).2.2.2.2 rfl

/-- C4: `smartSync` dispatches on the cache state exactly as claimed — full
sync when the mirror is unhealthy or older than the long bound (48h),
incremental when healthy and within the long bound but needing refresh
(older than the TTL), and otherwise the cached branch, which consults the
remote environment not at all and returns the stored mirror unchanged. -/
theorem c4_smart_sync_strategy (s : CacheStatus) (flag : Bool) (env env2 : Env)
    (now : ℚ) (st : Store) :
    ((s.isHealthy = false ∨ JsNum.gtb s.cacheAge 48 = true) → smartSyncChoice s = .full) ∧
    (s.isHealthy = true → JsNum.gtb s.cacheAge 48 = false → s.needsRefresh = true →
      smartSyncChoice s = .incremental) ∧
    (s.isHealthy = true → JsNum.gtb s.cacheAge 48 = false → s.needsRefresh = false →
      smartSyncChoice s = .cached) ∧
    (smartSyncChoice (statusOf now st) = .cached →
      smartSync flag env now st = smartSync flag env2 now st ∧
      (smartSync flag env now st).1.store = st ∧
      (smartSync flag env now st).1.result = .ok (getOrganizationalStructure now st) ∧
      (smartSync flag env now st).1.flagAfter = flag) := by
  refine ⟨?_, ?_, ?_, ?_⟩
  · rintro (h | h) <;> simp [smartSyncChoice, h]
  · intro h1 h2 h3
    simp [smartSyncChoice, h1, h2, h3]
  · intro h1 h2 h3
    simp [smartSyncChoice, h1, h2, h3]
  · intro h
    simp [smartSync, h]

/-- C4 witness: on a fresh healthy mirror the cached branch really is taken,
ignores the remote environment, and hands back the stored data unchanged. -/
theorem c4_smart_sync_strategy_witness :
    smartSync false envScenario 0 stFresh = smartSync false envUsersFault 0 stFresh ∧
    (smartSync false envScenario 0 stFresh).1.store = stFresh ∧
    (smartSync false envScenario 0 stFresh).1.result
      = .ok (getOrganizationalStructure 0 stFresh) ∧
    (smartSync false envScenario 0 stFresh).1.flagAfter = false :=
  (c4_smart_sync_strategy (statusOf 0 stFresh) false envScenario envUsersFault 0 stFresh).2.2.2
    (by norm_num [smartSyncChoice, statusOf, getCacheStatusOf, getOrganizationalStructure,
      lastSyncTime, stFresh, emptyStore, JsNum.gtb, defaultTtlHours, List.filter])

/-- C10: `getCacheStatus` never propagates a store read failure — for every
failing read it returns exactly the fixed degraded status
(unhealthy, no last sync, zero counts, infinite age, refresh needed). -/
theorem c10_cache_status_total_on_failure (now : ℚ) (e : String) :
    getCacheStatusOf now (.error e) = ⟨false, none, 0, 0, .inf, true⟩ := rfl

end MondayMermaid
